import Mathlib

/-!
Verification of the node-selection core of the `select/linear` plugin
(`src/plugins/select/linear/select_linear.c`).

The C code is shallowly embedded: bitmaps (`bitstr_t`) become `List Bool`
indexed by node number, the consumable-resource registry (`struct cr_record`)
becomes the `CRState` structure, and the read-only collaborator tables
(node records, `slurm_get_avail_procs`, the GRES plugin) become oracle
functions bundled in a `World` record.  Machine integers are modelled by
`Nat`/`Int`; where the C code performs unsigned arithmetic that can wrap,
the wrap is written out explicitly with `u32`/`u16`.  Logging is dropped;
error codes are kept.
-/

set_option autoImplicit false

namespace SelectLinear

/-! ## Constants from slurm headers and from select_linear.c -/

def NO_SHARE_LIMIT : Int := 0xfffe

def NODEINFO_MAGIC : Nat := 0x82ad

def RUN_JOB_INCR : Nat := 16

def NO_VAL : Nat := 0xfffffffe

def MEM_PER_CPU_BIT : Nat := 31

def SHARED_FORCE : Nat := 0x8000

def SLURM_SUCCESS : Int := 0

def SLURM_ERROR : Int := -1

def EINVAL : Int := 22

def SELECT_MODE_RUN_NOW : Nat := 0

def SELECT_MODE_TEST_ONLY : Nat := 1

def SELECT_MODE_WILL_RUN : Nat := 2

def PREEMPT_MODE_OFF : Nat := 0

def PREEMPT_MODE_SUSPEND : Nat := 1

def PREEMPT_MODE_REQUEUE : Nat := 2

def PREEMPT_MODE_CHECKPOINT : Nat := 3

def PREEMPT_MODE_CANCEL : Nat := 4

/-- Truncation of unsigned 32-bit arithmetic (`uint32_t`). -/
def u32 (x : Nat) : Nat := x % 4294967296

/-- Truncation of unsigned 16-bit arithmetic (`uint16_t`). -/
def u16 (x : Nat) : Nat := x % 65536

/-! ## Bitmap primitives (`bitstr_t`)

A bitmap is a `List Bool` whose length is the configured node count.
Reads beyond the end default to `false`, writes beyond the end are no-ops;
all modelled code stays within bounds. -/

/-- `bit_test` -/
def btest (bm : List Bool) (i : Nat) : Bool := bm.getD i false

/-- `bit_set` -/
def bset (bm : List Bool) (i : Nat) : List Bool := bm.set i true

/-- `bit_clear` -/
def bclear (bm : List Bool) (i : Nat) : List Bool := bm.set i false

/-- `bit_set_count` -/
def bcount (bm : List Bool) : Nat := bm.count true

/-- Helper for `bit_ffs`: first set bit at offset `i` or later. -/
def bffsAux : List Bool → Nat → Option Nat
  | [], _ => none
  | b :: t, i => if b then some i else bffsAux t (i + 1)

/-- `bit_ffs`: index of the first set bit, `none` when the bitmap is empty
(the C function returns -1 in that case). -/
def bffs (bm : List Bool) : Option Nat := bffsAux bm 0

/-- Helper for `bit_fls`: last set bit, tracking the best candidate so far. -/
def bflsAux : List Bool → Nat → Option Nat → Option Nat
  | [], _, acc => acc
  | b :: t, i, acc => bflsAux t (i + 1) (if b then some i else acc)

/-- `bit_fls`: index of the last set bit, `none` when the bitmap is empty. -/
def bfls (bm : List Bool) : Option Nat := bflsAux bm 0 none

/-- `bit_super_set b1 b2`: every bit of `b1` is also set in `b2`. -/
def bsuperset (b1 b2 : List Bool) : Bool :=
  (List.range b1.length).all (fun i => !btest b1 i || btest b2 i)

/-- `bit_and` (in-place conjunction of the first argument with the second). -/
def band (b1 b2 : List Bool) : List Bool :=
  (List.range b1.length).map (fun i => btest b1 i && btest b2 i)

/-- `bit_overlap a b != 0`: the two bitmaps share a set bit. -/
def boverlap (b1 b2 : List Bool) : Bool :=
  (List.range b1.length).any (fun i => btest b1 i && btest b2 i)

/-- Position of the last `true` in a list, counted from the head. -/
def lastSet : List Bool → Option Nat
  | [] => none
  | b :: t =>
    match lastSet t with
    | some p => some (p + 1)
    | none => if b then some 0 else none

/-! ## Data model

`struct part_cr_record`, `struct node_cr_record`, `struct cr_record`,
`struct job_details`, `job_resources_t`, `struct job_record`.
Partition identity (`part_ptr` pointer comparison in C) is modelled with a
numeric id.  GRES lists are not part of the modelled state: every GRES
plugin call is either a pure query routed through a `World` oracle or a
side effect on state outside the claims. -/

structure PartCRRecord where
  part_id : Nat
  run_job_cnt : Nat
  tot_job_cnt : Nat
  deriving DecidableEq, Repr, Inhabited

structure NodeCRRecord where
  alloc_memory : Nat
  exclusive_cnt : Nat
  parts : List PartCRRecord
  deriving DecidableEq, Repr, Inhabited

/-- `struct cr_record`.  The job-id arrays store `0` in empty slots, like the
C arrays; `run_job_ids = []` models a `NULL` array pointer. -/
structure CRState where
  nodes : List NodeCRRecord
  run_job_ids : List Nat
  tot_job_ids : List Nat
  deriving DecidableEq, Repr, Inhabited

/-- `struct job_details` (the fields the plugin reads).
`pn_min_memory` carries the `MEM_PER_CPU` flag in bit 31 as in C. -/
structure JobDetails where
  pn_min_memory : Nat
  min_cpus : Nat
  req_node_bitmap : Option (List Bool)
  exc_node_bitmap : Option (List Bool)
  contiguous : Bool
  shared : Nat
  deriving DecidableEq, Repr, Inhabited

/-- `job_resources_t` (the fields the plugin reads or writes).
The run-length encoded `cpu_array_*` fields and the string node list are
not consumed by any modelled operation and are omitted. -/
structure JobResources where
  node_bitmap : List Bool
  cpus : List Nat
  memory_allocated : List Nat
  ncpus : Nat
  nhosts : Nat
  deriving DecidableEq, Repr, Inhabited

inductive JobState where
  | pending
  | running
  | suspended
  deriving DecidableEq, Repr, Inhabited

/-- `struct job_record` (the fields the plugin reads or writes).
`preempt_mode` models the result of `slurm_job_preempt_mode` for this job. -/
structure Job where
  job_id : Nat
  part_id : Nat
  details : Option JobDetails
  node_bitmap : List Bool
  job_resrcs : Option JobResources
  total_cpus : Nat
  node_cnt : Nat
  state : JobState
  priority : Nat
  end_time : Nat
  start_time : Nat
  preempt_mode : Nat
  part_max_share : Nat
  deriving DecidableEq, Repr, Inhabited

def Job.det (j : Job) : JobDetails := j.details.getD default

/-- `IS_JOB_RUNNING` -/
def Job.isRunning (j : Job) : Bool := j.state = JobState.running

/-- `IS_JOB_SUSPENDED` -/
def Job.isSuspended (j : Job) : Bool := j.state = JobState.suspended

/-- `struct part_record` (read-only collaborator). -/
structure PartRecord where
  id : Nat
  node_bitmap : Option (List Bool)
  deriving DecidableEq, Repr, Inhabited

/-- Read-only collaborators and configuration, bundled.
* `node_cnt` — `select_node_cnt`;
* `node_cpus i` — the node's effective CPU count
  (`config_ptr->cpus` when `select_fast_schedule`, else `node_ptr->cpus`);
  this is also `_get_total_cpus i`;
* `real_memory i` — the node's effective `real_memory` under the same rule;
* `avail_cpus i` — `_get_avail_cpus(job, i)`, the `slurm_get_avail_procs`
  result for the job under test;
* `gres_cpus use_total i` — `gres_plugin_job_test` for the job under test
  against node `i` (`NO_VAL` = no GRES constraint);
* `cr_type_memory` — `cr_type == CR_MEMORY`. -/
structure World where
  node_cnt : Nat
  node_cpus : Nat → Nat
  real_memory : Nat → Nat
  avail_cpus : Nat → Nat
  gres_cpus : Bool → Nat → Nat
  cr_type_memory : Bool

/-! ## Job-id array bookkeeping (`_add_run_job`, `_add_tot_job`,
`_ck_run_job`, `_ck_tot_job`) -/

/-- Fill the first zero slot with `id`; `none` when no slot is free. -/
def fillFirstZero (id : Nat) : List Nat → Option (List Nat)
  | [] => none
  | x :: t =>
    if x = 0 then some (id :: t)
    else (fillFirstZero id t).map (fun t2 => x :: t2)

/-- Shared body of `_add_run_job` and `_add_tot_job`: create a
`RUN_JOB_INCR`-slot array when the pointer is `NULL`, otherwise fill the
first zero slot, otherwise grow by `RUN_JOB_INCR` and append. -/
def addJobId (l : List Nat) (id : Nat) : List Nat :=
  if l.isEmpty then id :: List.replicate (RUN_JOB_INCR - 1) 0
  else
    match fillFirstZero id l with
    | some l2 => l2
    | none => l ++ id :: List.replicate (RUN_JOB_INCR - 1) 0

/-- `_ck_run_job`/`_ck_tot_job` with `clear_it = true`: zero every slot
holding `id`. -/
def remJobId (l : List Nat) (id : Nat) : List Nat :=
  l.map (fun x => if x = id then 0 else x)

/-- `_ck_run_job`/`_ck_tot_job` return value: some slot holds `id`.
(The `NULL`-array early return coincides with `contains` on `[]`.) -/
def hasJobId (l : List Nat) (id : Nat) : Bool := l.contains id

def _add_run_job (cr : CRState) (job_id : Nat) : CRState :=
  { cr with run_job_ids := addJobId cr.run_job_ids job_id }

def _add_tot_job (cr : CRState) (job_id : Nat) : CRState :=
  { cr with tot_job_ids := addJobId cr.tot_job_ids job_id }

/-! ## Availability filter (`_job_count_bitmap`)

`jcbMemFlags` is the preamble computing `job_memory_cpu`/`job_memory_node`;
`jcbBody` is the body of the scan loop for one node index; `jcbLoop` runs
the loop from `bit_ffs(bitmap)` to `bit_fls(bitmap)`. -/

/-- The preamble of `_job_count_bitmap`: `(job_memory_cpu, job_memory_node)`.
Both stay 0 in `SELECT_MODE_TEST_ONLY` or when `cr_type != CR_MEMORY`. -/
def jcbMemFlags (w : World) (det : JobDetails) (mode : Nat) : Nat × Nat :=
  if mode ≠ SELECT_MODE_TEST_ONLY ∧ det.pn_min_memory ≠ 0 ∧
      w.cr_type_memory = true then
    if det.pn_min_memory.testBit MEM_PER_CPU_BIT then
      (det.pn_min_memory % 2 ^ MEM_PER_CPU_BIT, 0)
    else (0, det.pn_min_memory)
  else (0, 0)

/-- One iteration of the `_job_count_bitmap` scan, for node index `i`. -/
def jcbBody (w : World) (cr : CRState) (jmc jmn : Nat)
    (run_job_cnt tot_job_cnt : Int) (mode : Nat) (bitmap : List Bool)
    (i : Nat) (jobmap : List Bool) (count : Nat) : List Bool × Nat :=
  if btest bitmap i = false then (bclear jobmap i, count)
  else
    let cpu_cnt := w.node_cpus i
    let gres_cpus := w.gres_cpus (mode = SELECT_MODE_TEST_ONLY) i
    if gres_cpus ≠ NO_VAL ∧ gres_cpus < cpu_cnt then (bclear jobmap i, count)
    else if mode = SELECT_MODE_TEST_ONLY then (bset jobmap i, count + 1)
    else
      let nd := cr.nodes.getD i default
      let job_mem := if jmc ≠ 0 then u32 (jmc * cpu_cnt) else jmn
      if (jmc ≠ 0 ∨ jmn ≠ 0) ∧
          u32 (nd.alloc_memory + job_mem) > w.real_memory i then
        (bclear jobmap i, count)
      else if nd.exclusive_cnt ≠ 0 then (bclear jobmap i, count)
      else
        let total_run_jobs : Int := (nd.parts.map (·.run_job_cnt)).sum
        let total_jobs : Int := (nd.parts.map (·.tot_job_cnt)).sum
        if total_run_jobs ≤ run_job_cnt ∧ total_jobs ≤ tot_job_cnt then
          (bset jobmap i, count + 1)
        else (bclear jobmap i, count)

/-- The scan loop of `_job_count_bitmap`: `fuel` indices starting at `i`. -/
def jcbLoop (w : World) (cr : CRState) (jmc jmn : Nat)
    (run_job_cnt tot_job_cnt : Int) (mode : Nat) (bitmap : List Bool) :
    Nat → Nat → List Bool → Nat → List Bool × Nat
  | _, 0, jobmap, count => (jobmap, count)
  | i, fuel + 1, jobmap, count =>
    let r := jcbBody w cr jmc jmn run_job_cnt tot_job_cnt mode bitmap i
      jobmap count
    jcbLoop w cr jmc jmn run_job_cnt tot_job_cnt mode bitmap (i + 1) fuel
      r.1 r.2

def _job_count_bitmap (w : World) (cr : CRState) (job : Job)
    (bitmap jobmap : List Bool) (run_job_cnt tot_job_cnt : Int)
    (mode : Nat) : List Bool × Nat :=
  let mf := jcbMemFlags w job.det mode
  match bffs bitmap, bfls bitmap with
  | some i_first, some i_last =>
    jcbLoop w cr mf.1 mf.2 run_job_cnt tot_job_cnt mode bitmap i_first
      (i_last + 1 - i_first) jobmap 0
  | _, _ => (jobmap, 0)

/-- The decision `jcbBody` takes for a node index: the node's bit ends up
set (and the count is bumped) exactly when this proposition holds. -/
def jcbDecision (w : World) (cr : CRState) (jmc jmn : Nat)
    (run_job_cnt tot_job_cnt : Int) (mode : Nat) (bitmap : List Bool)
    (i : Nat) : Prop :=
  btest bitmap i = true ∧
  ¬(w.gres_cpus (decide (mode = SELECT_MODE_TEST_ONLY)) i ≠ NO_VAL ∧
    w.gres_cpus (decide (mode = SELECT_MODE_TEST_ONLY)) i < w.node_cpus i) ∧
  (mode = SELECT_MODE_TEST_ONLY ∨
    (¬((jmc ≠ 0 ∨ jmn ≠ 0) ∧
        u32 ((cr.nodes.getD i default).alloc_memory +
          (if jmc ≠ 0 then u32 (jmc * w.node_cpus i) else jmn)) >
          w.real_memory i) ∧
     (cr.nodes.getD i default).exclusive_cnt = 0 ∧
     (((cr.nodes.getD i default).parts.map (·.run_job_cnt)).sum : Int) ≤
        run_job_cnt ∧
     (((cr.nodes.getD i default).parts.map (·.tot_job_cnt)).sum : Int) ≤
        tot_job_cnt))

instance jcbDecisionDecidable (w : World) (cr : CRState) (jmc jmn : Nat)
    (rc tc : Int) (mode : Nat) (bitmap : List Bool) (i : Nat) :
    Decidable (jcbDecision w cr jmc jmn rc tc mode bitmap i) := by
  unfold jcbDecision
  infer_instance

/-! ### The claim-level availability predicate (C1)

`specNodeAvail` states the inclusion condition of claim C1 in the spec's own
vocabulary: GRES bound, memory fit with
`job_mem = per_cpu_mem ? per_cpu_mem * cpu_cnt : per_node_mem`,
exclusive-use fit, and the two sharing-cap sums. -/

/-- The job's memory demand on node `i` in the spec's formulation. -/
def specJobMem (w : World) (det : JobDetails) (i : Nat) : Nat :=
  let per_cpu_mem := if det.pn_min_memory.testBit MEM_PER_CPU_BIT
    then det.pn_min_memory % 2 ^ MEM_PER_CPU_BIT else 0
  let per_node_mem := if det.pn_min_memory.testBit MEM_PER_CPU_BIT
    then 0 else det.pn_min_memory
  if per_cpu_mem ≠ 0 then per_cpu_mem * w.node_cpus i else per_node_mem

def specNodeAvail (w : World) (cr : CRState) (det : JobDetails)
    (run_cap tot_cap : Int) (i : Nat) : Prop :=
  (w.gres_cpus false i = NO_VAL ∨ w.node_cpus i ≤ w.gres_cpus false i) ∧
  (cr.nodes.getD i default).alloc_memory + specJobMem w det i ≤
    w.real_memory i ∧
  (cr.nodes.getD i default).exclusive_cnt = 0 ∧
  (((cr.nodes.getD i default).parts.map (·.run_job_cnt)).sum : Int) ≤
    run_cap ∧
  (((cr.nodes.getD i default).parts.map (·.tot_job_cnt)).sum : Int) ≤
    tot_cap

instance specNodeAvailDecidable (w : World) (cr : CRState) (det : JobDetails)
    (rc tc : Int) (i : Nat) : Decidable (specNodeAvail w cr det rc tc i) := by
  unfold specNodeAvail
  infer_instance

/-! ### A concrete instance for the C1 characterization: two nodes, one
with a shareable partition slot, one held exclusively. -/

def c1World : World :=
  { node_cnt := 2, node_cpus := fun _ => 4, real_memory := fun _ => 100,
    avail_cpus := fun _ => 4, gres_cpus := fun _ _ => NO_VAL,
    cr_type_memory := true }

def c1CR : CRState :=
  { nodes := [⟨50, 0, [⟨1, 1, 1⟩]⟩, ⟨0, 1, [⟨1, 0, 0⟩]⟩],
    run_job_ids := [3], tot_job_ids := [3] }

def c1Details : JobDetails :=
  { pn_min_memory := 10, min_cpus := 4, req_node_bitmap := none,
    exc_node_bitmap := none, contiguous := false, shared := 1 }

def c1Job : Job :=
  { job_id := 4, part_id := 1, details := some c1Details,
    node_bitmap := [true, true], job_resrcs := none, total_cpus := 0,
    node_cnt := 0, state := JobState.pending, priority := 1, end_time := 0,
    start_time := 0, preempt_mode := 0, part_max_share := 4 }

/-! ## `_enough_nodes`

`avail_nodes` and `rem_nodes` are C `int`s; `min_nodes` and `req_nodes` are
`uint32_t`.  The arithmetic is modelled over unbounded integers (the values
are node counts, far below any wrap boundary). -/

def _enough_nodes (avail_nodes rem_nodes : Int) (min_nodes req_nodes : Nat) : Bool :=
  let needed_nodes : Int :=
    if req_nodes > min_nodes then rem_nodes + min_nodes - req_nodes
    else rem_nodes
  avail_nodes ≥ needed_nodes

/-! ## Per-node select info (`struct select_nodeinfo`) and its wire format -/

structure SelectNodeinfo where
  magic : Nat
  alloc_cpus : Nat
  deriving DecidableEq, Repr, Inhabited

/-- A pack buffer: a sequence of 16-bit words (`pack16` is the only pack
operation this plugin uses). -/
def pack16 (v : Nat) (buf : List Nat) : List Nat := buf ++ [u16 v]

/-- `safe_unpack16`: read one 16-bit word or fail. -/
def safe_unpack16 : List Nat → Option (Nat × List Nat)
  | [] => none
  | w :: rest => some (w, rest)

def select_p_select_nodeinfo_alloc : SelectNodeinfo :=
  { magic := NODEINFO_MAGIC, alloc_cpus := 0 }

def select_p_select_nodeinfo_pack (nodeinfo : SelectNodeinfo) (buf : List Nat) :
    List Nat :=
  pack16 nodeinfo.alloc_cpus buf

def select_p_select_nodeinfo_unpack (buf : List Nat) :
    Option (SelectNodeinfo × List Nat) :=
  let nodeinfo := select_p_select_nodeinfo_alloc
  match safe_unpack16 buf with
  | some (v, rest) => some ({ nodeinfo with alloc_cpus := v }, rest)
  | none => none

/-- `select_p_select_nodeinfo_free`: wrong magic is reported as `EINVAL`. -/
def select_p_select_nodeinfo_free (nodeinfo : SelectNodeinfo) : Int :=
  if nodeinfo.magic ≠ NODEINFO_MAGIC then EINVAL else SLURM_SUCCESS

/-! ## Flat best-fit selector (`_job_test`)

The embedding covers the flat path; the configuration under verification has
no switch records (`switch_record_cnt == 0`), so the topology branch is
never taken.  The five parallel `consec_*` arrays are modelled as one list
of `ConsecRun` records; `consec_req[i] == -1` becomes `req = none`. -/

/-- One entry of the consecutive-run table built by `_job_test`:
`consec_start`, `consec_end`, `consec_nodes`, `consec_cpus`, `consec_req`. -/
structure ConsecRun where
  start : Nat
  endIdx : Nat
  nodes : Nat
  cpus : Nat
  req : Option Nat
  deriving DecidableEq, Repr, Inhabited

/-- The mutable locals of `_job_test` that the table build and the best-fit
loop thread through: the working bitmap and the demand counters.
`rem_cpus`/`rem_nodes` are C `int`s (they go negative); `max_nodes` is a
`uint32_t` that is only ever decremented under a positivity guard. -/
structure JTState where
  bitmap : List Bool
  rem_cpus : Int
  rem_nodes : Int
  max_nodes : Nat
  alloc_cpus : Nat
  total_cpus : Nat
  deriving DecidableEq, Repr, Inhabited

/-- Accumulator of the table-build scan: the completed runs plus the run
being accumulated (`consec_index` entry). -/
structure JTBuild where
  runs : List ConsecRun
  cur_start : Nat
  cur_nodes : Nat
  cur_cpus : Nat
  cur_req : Option Nat
  st : JTState
  deriving DecidableEq, Repr, Inhabited

/-- One index step of the table-build loop of `_job_test`. -/
def jtBuildStep (w : World) (det : JobDetails) (b : JTBuild) (index : Nat) :
    JTBuild :=
  if btest b.st.bitmap index then
    let b := if b.cur_nodes = 0 then { b with cur_start := index } else b
    let avail_cpus := w.avail_cpus index
    if det.req_node_bitmap.isSome ∧ b.st.max_nodes > 0 ∧
        btest (det.req_node_bitmap.getD []) index then
      { b with
        cur_req := if b.cur_req = none then some index else b.cur_req,
        st := { b.st with
          rem_nodes := b.st.rem_nodes - 1,
          max_nodes := b.st.max_nodes - 1,
          rem_cpus := b.st.rem_cpus - avail_cpus,
          alloc_cpus := b.st.alloc_cpus + avail_cpus,
          total_cpus := b.st.total_cpus + w.node_cpus index } }
    else
      { b with
        st := { b.st with bitmap := bclear b.st.bitmap index },
        cur_cpus := b.cur_cpus + avail_cpus,
        cur_nodes := b.cur_nodes + 1 }
  else if b.cur_nodes = 0 then
    { b with cur_req := none }
  else
    { b with
      runs := b.runs ++ [⟨b.cur_start, index - 1, b.cur_nodes, b.cur_cpus,
        b.cur_req⟩],
      cur_cpus := 0, cur_nodes := 0, cur_req := none }

/-- The full table build: scan indices `0 .. select_node_cnt - 1`, then
close the trailing run if it holds any non-required nodes. -/
def jtBuild (w : World) (det : JobDetails) (st : JTState) :
    List ConsecRun × JTState :=
  let b0 : JTBuild :=
    { runs := [], cur_start := 0, cur_nodes := 0, cur_cpus := 0,
      cur_req := none, st := st }
  let b := (List.range w.node_cnt).foldl (jtBuildStep w det) b0
  if b.cur_nodes ≠ 0 then
    (b.runs ++ [⟨b.cur_start, w.node_cnt - 1, b.cur_nodes, b.cur_cpus,
      b.cur_req⟩], b.st)
  else (b.runs, b.st)

/-- Best-fit candidate tracked by the inner scan of the accumulation loop:
`best_fit_cpus`, `best_fit_nodes`, `best_fit_location`, `best_fit_req`,
`best_fit_sufficient`. -/
structure BestFit where
  cpus : Nat
  nodes : Nat
  location : Nat
  req : Option Nat
  sufficient : Bool
  deriving DecidableEq, Repr, Inhabited

/-- The inner scan over the run table choosing the best-fit run.  The
trailing-blocks check for contiguous jobs with required nodes (which zeroes
`best_fit_nodes` and breaks) inspects the remaining runs, exactly like the
inner `for (j = i+1; ...)` loop. -/
def jtScan (contiguous has_req : Bool) (rem_cpus rem_nodes : Int)
    (min_nodes req_nodes : Nat) :
    List ConsecRun → Nat → BestFit → BestFit
  | [], _, best => best
  | r :: rest, i, best =>
    if r.nodes = 0 then jtScan contiguous has_req rem_cpus rem_nodes
      min_nodes req_nodes rest (i + 1) best
    else if contiguous ∧ has_req ∧ r.req = none then
      jtScan contiguous has_req rem_cpus rem_nodes min_nodes req_nodes rest
        (i + 1) best
    else
      let sufficient := (r.cpus : Int) ≥ rem_cpus ∧
        _enough_nodes r.nodes rem_nodes min_nodes req_nodes = true
      let best2 :=
        if best.nodes = 0 ∨ (best.req = none ∧ r.req ≠ none) ∨
            (sufficient ∧ best.sufficient = false) ∨
            (sufficient ∧ r.cpus < best.cpus) ∨
            (¬sufficient ∧ r.cpus > best.cpus) then
          { cpus := r.cpus, nodes := r.nodes, location := i, req := r.req,
            sufficient := decide sufficient }
        else best
      if contiguous ∧ has_req then
        if rest.any (fun r2 => r2.req ≠ none) then { best2 with nodes := 0 }
        else jtScan contiguous has_req rem_cpus rem_nodes min_nodes req_nodes
          rest (i + 1) best2
      else jtScan contiguous has_req rem_cpus rem_nodes min_nodes req_nodes
        rest (i + 1) best2

/-- One of the three commit loops of `_job_test` over an explicit index
sequence, with the shared early-exit test
`(max_nodes <= 0) || ((rem_nodes <= 0) && (rem_cpus <= 0))` and the skip of
already-set bits. -/
def jtCommit (w : World) : List Nat → JTState → JTState
  | [], st => st
  | i :: rest, st =>
    if st.max_nodes = 0 ∨ (st.rem_nodes ≤ 0 ∧ st.rem_cpus ≤ 0) then st
    else if btest st.bitmap i then jtCommit w rest st
    else
      jtCommit w rest
        { bitmap := bset st.bitmap i,
          rem_nodes := st.rem_nodes - 1,
          max_nodes := st.max_nodes - 1,
          rem_cpus := st.rem_cpus - w.avail_cpus i,
          alloc_cpus := st.alloc_cpus + w.avail_cpus i,
          total_cpus := st.total_cpus + w.node_cpus i }

/-- Zero the chosen run (`consec_cpus[loc] = consec_nodes[loc] = 0`). -/
def jtZeroRun (runs : List ConsecRun) (loc : Nat) : List ConsecRun :=
  match runs.getD loc default with
  | r => runs.set loc { r with cpus := 0, nodes := 0 }

/-- The accumulation loop (`while (consec_index && (max_nodes > 0))`).
Each non-terminating iteration zeroes the chosen run, so the number of
iterations is bounded by the table size; `fuel` is set accordingly by
`_job_test`.  Returns `(error_code, final state)`. -/
def jtLoop (w : World) (det : JobDetails) (min_nodes req_nodes : Nat)
    (has_req : Bool) : Nat → List ConsecRun → JTState → Int × JTState
  | 0, _, st => (EINVAL, st)
  | fuel + 1, runs, st =>
    if runs.length = 0 ∨ st.max_nodes = 0 then (EINVAL, st)
    else
      let best := jtScan det.contiguous has_req st.rem_cpus st.rem_nodes
        min_nodes req_nodes runs 0
        { cpus := 0, nodes := 0, location := 0, req := none,
          sufficient := false }
      if best.nodes = 0 then (EINVAL, st)
      else if det.contiguous ∧ ((best.cpus : Int) < st.rem_cpus ∨
          _enough_nodes best.nodes st.rem_nodes min_nodes req_nodes
            = false) then
        (EINVAL, st)
      else
        let run := runs.getD best.location default
        let st2 :=
          match best.req with
          | some r =>
            let stUp := jtCommit w (List.range' r (run.endIdx + 1 - r)) st
            jtCommit w (List.range' run.start (r - run.start)).reverse stUp
          | none =>
            jtCommit w (List.range' run.start (run.endIdx + 1 - run.start))
              st
        if det.contiguous ∨ (st2.rem_nodes ≤ 0 ∧ st2.rem_cpus ≤ 0) then
          (SLURM_SUCCESS, st2)
        else
          jtLoop w det min_nodes req_nodes has_req fuel
            (jtZeroRun runs best.location) st2

/-- Result record of `_job_test` and of the planner entry points: the error
code, the (narrowed) node bitmap, and the job with any field updates the
call performed. -/
structure JobTestOut where
  rc : Int
  bitmap : List Bool
  job : Job
  deriving DecidableEq, Repr, Inhabited

def _job_test (w : World) (job : Job) (bitmap : List Bool)
    (min_nodes max_nodes req_nodes : Nat) : JobTestOut :=
  let det := job.det
  if bcount bitmap < min_nodes then ⟨EINVAL, bitmap, job⟩
  else if det.req_node_bitmap.isSome ∧
      bsuperset (det.req_node_bitmap.getD []) bitmap = false then
    ⟨EINVAL, bitmap, job⟩
  else
    let st0 : JTState :=
      { bitmap := bitmap,
        rem_cpus := det.min_cpus,
        rem_nodes := if req_nodes > min_nodes then req_nodes else min_nodes,
        max_nodes := max_nodes,
        alloc_cpus := 0, total_cpus := 0 }
    let build := jtBuild w det st0
    let r := jtLoop w det min_nodes req_nodes det.req_node_bitmap.isSome
      (build.1.length + 1) build.1 build.2
    let rc :=
      if r.1 ≠ SLURM_SUCCESS ∧ r.2.rem_cpus ≤ 0 ∧
          _enough_nodes 0 r.2.rem_nodes min_nodes req_nodes = true then
        SLURM_SUCCESS
      else r.1
    if rc = SLURM_SUCCESS then
      ⟨SLURM_SUCCESS, r.2.bitmap, { job with total_cpus := r.2.total_cpus }⟩
    else ⟨rc, r.2.bitmap, job⟩

/-! ### Scenario S2 of the spec (claim C2): nodes 0..7 with 4 CPUs each,
required node 5, contiguous, demand 12 CPUs / 3 nodes. -/

def c2World : World :=
  { node_cnt := 8, node_cpus := fun _ => 4, real_memory := fun _ => 1000,
    avail_cpus := fun _ => 4, gres_cpus := fun _ _ => NO_VAL,
    cr_type_memory := true }

def c2Details : JobDetails :=
  { pn_min_memory := 0, min_cpus := 12,
    req_node_bitmap :=
      some [false, false, false, false, false, true, false, false],
    exc_node_bitmap := none, contiguous := true, shared := 1 }

def c2Job : Job :=
  { job_id := 1, part_id := 1, details := some c2Details,
    node_bitmap := List.replicate 8 true, job_resrcs := none,
    total_cpus := 0, node_cnt := 0, state := JobState.pending, priority := 1,
    end_time := 0, start_time := 0, preempt_mode := 0, part_max_share := 1 }

/-! ## Allocator (`_add_job_to_nodes`, `_rm_job_from_nodes`)

The node loops of both functions run from `bit_ffs` to `bit_fls` of the
job's `job_resrcs` node bitmap and skip indices whose bit is clear; since
every bit outside that range is clear, the loops are modelled as a scan of
all node indices with the same skip guards — the states produced are
identical.  The GRES plugin alloc/dealloc calls and all logging are side
effects outside the modelled state; `node_offset` (used only as a GRES
argument) is dropped with them. -/

/-- The `job_memory_cpu`/`job_memory_node` preamble shared by
`_add_job_to_nodes` (`alloc_all`) and `_rm_job_from_nodes` (`remove_all`):
memory is only accounted when the flag is set, the job has details, the job
requests memory and `cr_type == CR_MEMORY`. -/
def allocMemFlags (w : World) (job : Job) (all_flag : Bool) : Nat × Nat :=
  if all_flag = true ∧ job.details.isSome ∧ job.det.pn_min_memory ≠ 0 ∧
      w.cr_type_memory = true then
    if job.det.pn_min_memory.testBit MEM_PER_CPU_BIT then
      (job.det.pn_min_memory % 2 ^ MEM_PER_CPU_BIT, 0)
    else (0, job.det.pn_min_memory)
  else (0, 0)

/-- Walk a node's PartCR list; at the first entry for the job's partition,
increment `run_job_cnt` (when `alloc_all`) and `tot_job_cnt`, then stop.
Returns the updated list and whether a match was found. -/
def addPartsInc (alloc_all : Bool) (part_id : Nat) :
    List PartCRRecord → List PartCRRecord × Bool
  | [] => ([], false)
  | pc :: rest =>
    if pc.part_id ≠ part_id then
      let r := addPartsInc alloc_all part_id rest
      (pc :: r.1, r.2)
    else
      ({ pc with
        run_job_cnt := if alloc_all then u16 (pc.run_job_cnt + 1)
          else pc.run_job_cnt,
        tot_job_cnt := u16 (pc.tot_job_cnt + 1) } :: rest, true)

/-- The per-node mutation of `_add_job_to_nodes`: memory, exclusive count
and PartCR counters. -/
def addNodeUpd (w : World) (job : Job) (jmc jmn : Nat)
    (alloc_all exclusive : Bool) (i : Nat) (nd : NodeCRRecord) :
    NodeCRRecord :=
  let cpu_cnt := w.node_cpus i
  let new_mem :=
    if jmc ≠ 0 then u32 (nd.alloc_memory + u32 (jmc * cpu_cnt))
    else u32 (nd.alloc_memory + jmn)
  let nd1 := { nd with alloc_memory := new_mem }
  let nd2 := if exclusive then
      { nd1 with exclusive_cnt := u16 (nd1.exclusive_cnt + 1) }
    else nd1
  { nd2 with parts := (addPartsInc alloc_all job.part_id nd2.parts).1 }

/-- One index of the `_add_job_to_nodes` node loop: skip bits clear in the
resources bitmap or in the job's node bitmap, else apply `addNodeUpd` and
record a missing-partition error. -/
def addNodeStep (w : World) (job : Job) (jmc jmn : Nat)
    (alloc_all exclusive : Bool) (resrcs_bm : List Bool) (i : Nat)
    (nodes : List NodeCRRecord) (rc : Int) : List NodeCRRecord × Int :=
  if btest resrcs_bm i = false then (nodes, rc)
  else if btest job.node_bitmap i = false then (nodes, rc)
  else
    let nd := nodes.getD i default
    (nodes.set i (addNodeUpd w job jmc jmn alloc_all exclusive i nd),
      if (addPartsInc alloc_all job.part_id nd.parts).2 then rc
      else SLURM_ERROR)

def addNodesLoop (w : World) (job : Job) (jmc jmn : Nat)
    (alloc_all exclusive : Bool) (resrcs_bm : List Bool) :
    Nat → Nat → List NodeCRRecord → Int → List NodeCRRecord × Int
  | _, 0, nodes, rc => (nodes, rc)
  | i, fuel + 1, nodes, rc =>
    let r := addNodeStep w job jmc jmn alloc_all exclusive resrcs_bm i
      nodes rc
    addNodesLoop w job jmc jmn alloc_all exclusive resrcs_bm (i + 1) fuel
      r.1 r.2

/-- `_add_job_to_nodes` (commit_alloc).  `alloc_all = true` is the full
allocation (`select_p_job_begin`), `false` the resume-from-suspend variant
(`select_p_job_resume`). -/
def _add_job_to_nodes (w : World) (cr : CRState) (job : Job)
    (alloc_all : Bool) : Int × CRState :=
  let mf := allocMemFlags w job alloc_all
  match job.job_resrcs with
  | none => (SLURM_ERROR, cr)
  | some resrcs =>
    let exclusive := job.det.shared = 0
    let cr1 := if alloc_all then _add_run_job cr job.job_id else cr
    let cr2 := _add_tot_job cr1 job.job_id
    let r := addNodesLoop w job mf.1 mf.2 alloc_all exclusive
      resrcs.node_bitmap 0 cr2.nodes.length cr2.nodes SLURM_SUCCESS
    (r.2, { cr2 with nodes := r.1 })

/-- Walk a node's PartCR list; at the first entry for the job's partition,
decrement `run_job_cnt` (when the job was running) and, when `remove_all`,
decrement `tot_job_cnt` with the run/tot re-sync fix-up; decrements clamp
at 0.  Returns the updated list and whether a match was found. -/
def rmPartsDec (remove_all is_job_running : Bool) (part_id : Nat) :
    List PartCRRecord → List PartCRRecord × Bool
  | [] => ([], false)
  | pc :: rest =>
    if pc.part_id ≠ part_id then
      let r := rmPartsDec remove_all is_job_running part_id rest
      (pc :: r.1, r.2)
    else
      let pc1 :=
        if is_job_running = false then pc
        else if pc.run_job_cnt > 0 then
          { pc with run_job_cnt := pc.run_job_cnt - 1 }
        else pc
      let pc2 :=
        if remove_all then
          let pc2a := if pc1.tot_job_cnt > 0 then
              { pc1 with tot_job_cnt := pc1.tot_job_cnt - 1 }
            else pc1
          if pc2a.tot_job_cnt = 0 ∧ pc2a.run_job_cnt ≠ 0 then
            { pc2a with run_job_cnt := 0 }
          else pc2a
        else pc1
      (pc2 :: rest, true)

/-- The per-node mutation of `_rm_job_from_nodes`: memory (clamped at 0),
exclusive count (clamped at 0) and PartCR counters. -/
def rmNodeUpd (w : World) (job : Job) (jmc jmn : Nat)
    (remove_all exclusive is_job_running : Bool) (i : Nat)
    (nd : NodeCRRecord) : NodeCRRecord :=
  let job_memory := if jmc ≠ 0 then u32 (jmc * w.node_cpus i) else jmn
  let new_mem :=
    if nd.alloc_memory ≥ job_memory then nd.alloc_memory - job_memory
    else 0
  let new_excl :=
    if exclusive then
      if nd.exclusive_cnt ≠ 0 then nd.exclusive_cnt - 1
      else nd.exclusive_cnt
    else nd.exclusive_cnt
  let new_parts :=
    (rmPartsDec remove_all is_job_running job.part_id nd.parts).1
  { nd with alloc_memory := new_mem, exclusive_cnt := new_excl, parts := new_parts }

/-- One index of the `_rm_job_from_nodes` node loop. -/
def rmNodeStep (w : World) (job : Job) (jmc jmn : Nat)
    (remove_all exclusive is_job_running : Bool) (resrcs_bm : List Bool)
    (i : Nat) (nodes : List NodeCRRecord) (rc : Int) :
    List NodeCRRecord × Int :=
  if btest resrcs_bm i = false then (nodes, rc)
  else if btest job.node_bitmap i = false then (nodes, rc)
  else
    let nd := nodes.getD i default
    (nodes.set i
      (rmNodeUpd w job jmc jmn remove_all exclusive is_job_running i nd),
      if (rmPartsDec remove_all is_job_running job.part_id nd.parts).2 then
        rc
      else SLURM_ERROR)

def rmNodesLoop (w : World) (job : Job) (jmc jmn : Nat)
    (remove_all exclusive is_job_running : Bool) (resrcs_bm : List Bool) :
    Nat → Nat → List NodeCRRecord → Int → List NodeCRRecord × Int
  | _, 0, nodes, rc => (nodes, rc)
  | i, fuel + 1, nodes, rc =>
    let r := rmNodeStep w job jmc jmn remove_all exclusive is_job_running
      resrcs_bm i nodes rc
    rmNodesLoop w job jmc jmn remove_all exclusive is_job_running resrcs_bm
      (i + 1) fuel r.1 r.2

/-- `_rm_job_from_nodes` (release_alloc).  The job id is first removed from
the total set; a missing id or a missing `job_resrcs` record aborts with
`SLURM_ERROR` (in the latter case the id has already been removed).
`remove_all = false` is the suspend variant. -/
def _rm_job_from_nodes (w : World) (cr : CRState) (job : Job)
    (remove_all : Bool) : Int × CRState :=
  if hasJobId cr.tot_job_ids job.job_id = false then (SLURM_ERROR, cr)
  else
    let cr1 := { cr with
      tot_job_ids := remJobId cr.tot_job_ids job.job_id }
    let mf := allocMemFlags w job remove_all
    match job.job_resrcs with
    | none => (SLURM_ERROR, cr1)
    | some resrcs =>
      let is_job_running := hasJobId cr1.run_job_ids job.job_id
      let cr2 := { cr1 with
        run_job_ids := remJobId cr1.run_job_ids job.job_id }
      let exclusive := job.det.shared = 0
      let r := rmNodesLoop w job mf.1 mf.2 remove_all exclusive
        is_job_running resrcs.node_bitmap 0 cr2.nodes.length cr2.nodes
        SLURM_SUCCESS
      (r.2, { cr2 with nodes := r.1 })

/-! ### Commit/release round trip (C3) -/

/-- Well-formedness of a PartCR entry for the round trip: incrementing its
counters does not wrap `uint16_t`, and a zero total count implies a zero
run count (invariant I1). -/
def PartCRWf (pc : PartCRRecord) : Prop :=
  pc.run_job_cnt + 1 < 65536 ∧ pc.tot_job_cnt + 1 < 65536 ∧
  (pc.tot_job_cnt = 0 → pc.run_job_cnt = 0)

/-- Equality of registries at the level claim C3 compares them: node
records, and the nonzero contents of the run and total job-id arrays (the
arrays themselves may differ in trailing zero padding after growth). -/
def CREq (a b : CRState) : Prop :=
  a.nodes = b.nodes ∧
  a.run_job_ids.filter (fun x => x != 0) =
    b.run_job_ids.filter (fun x => x != 0) ∧
  a.tot_job_ids.filter (fun x => x != 0) =
    b.tot_job_ids.filter (fun x => x != 0)

instance (a b : CRState) : Decidable (CREq a b) := by
  unfold CREq
  infer_instance

instance (pc : PartCRRecord) : Decidable (PartCRWf pc) := by
  unfold PartCRWf
  infer_instance

/-- One commit/release pair with `mode_all = mode_remove_all = true`. -/
def commitRelease (w : World) (cr : CRState) (job : Job) : CRState :=
  (_rm_job_from_nodes w (_add_job_to_nodes w cr job true).2 job true).2

/-- The per-job side conditions of the C3 round trip, stated against a
given start state. -/
def C3JobOk (w : World) (cr : CRState) (job : Job) : Prop :=
  job.job_id ≠ 0 ∧
  job.job_id ∉ cr.run_job_ids ∧
  job.job_id ∉ cr.tot_job_ids ∧
  (∀ i, i < cr.nodes.length →
    (cr.nodes.getD i default).alloc_memory +
      (if (allocMemFlags w job true).1 ≠ 0 then
        (allocMemFlags w job true).1 * w.node_cpus i
      else (allocMemFlags w job true).2) < 2 ^ 32) ∧
  (∀ i, i < cr.nodes.length →
    (cr.nodes.getD i default).exclusive_cnt + 1 < 65536) ∧
  (∀ i, i < cr.nodes.length →
    ∀ pc ∈ (cr.nodes.getD i default).parts, PartCRWf pc)

instance (w : World) (cr : CRState) (job : Job) :
    Decidable (C3JobOk w cr job) := by
  unfold C3JobOk
  infer_instance

/-! ### C3 counterexample: a suspend-mode pair does not restore the state -/

def c3World : World :=
  { node_cnt := 1, node_cpus := fun _ => 4, real_memory := fun _ => 100,
    avail_cpus := fun _ => 4, gres_cpus := fun _ _ => NO_VAL,
    cr_type_memory := true }

def c3CR : CRState :=
  { nodes := [⟨0, 0, [⟨1, 0, 0⟩]⟩], run_job_ids := [], tot_job_ids := [] }

def c3Details : JobDetails :=
  { pn_min_memory := 0, min_cpus := 1, req_node_bitmap := none,
    exc_node_bitmap := none, contiguous := false, shared := 1 }

def c3Resrcs : JobResources :=
  { node_bitmap := [true], cpus := [4], memory_allocated := [0],
    ncpus := 4, nhosts := 1 }

def c3Job : Job :=
  { job_id := 7, part_id := 1, details := some c3Details,
    node_bitmap := [true], job_resrcs := some c3Resrcs, total_cpus := 4,
    node_cnt := 1, state := JobState.suspended, priority := 1,
    end_time := 10, start_time := 0, preempt_mode := 0,
    part_max_share := 1 }

/-! ## Registry clone and lazy build (`_dup_cr`, `_init_node_cr`) -/

/-- `_dup_cr`: deep copy of the registry.  The per-node PartCR chains are
rebuilt by prepending while walking the original, so each chain comes back
reversed; counters and both job-id arrays are copied verbatim.  GRES
snapshots are outside the modelled state. -/
def _dup_cr (cr : CRState) : CRState :=
  { nodes := cr.nodes.map (fun nd =>
      { alloc_memory := nd.alloc_memory,
        exclusive_cnt := nd.exclusive_cnt,
        parts := nd.parts.foldl (fun acc pc =>
          (⟨pc.part_id, pc.run_job_cnt, pc.tot_job_cnt⟩ :
            PartCRRecord) :: acc) [] }),
    run_job_ids := cr.run_job_ids,
    tot_job_ids := cr.tot_job_ids }

/-- PartCR counter bump of `_init_node_cr`'s per-node loop: `run_job_cnt`
is incremented when the job is running or gang-suspended with nonzero
priority, `tot_job_cnt` always; first matching partition entry only. -/
def initPartsInc (runish : Bool) (part_id : Nat) :
    List PartCRRecord → List PartCRRecord
  | [] => []
  | pc :: rest =>
    if pc.part_id ≠ part_id then pc :: initPartsInc runish part_id rest
    else
      { pc with
        run_job_cnt := if runish then u16 (pc.run_job_cnt + 1)
          else pc.run_job_cnt,
        tot_job_cnt := u16 (pc.tot_job_cnt + 1) } :: rest

/-- Per-node bookkeeping of `_init_node_cr` for one running-or-suspended
job: exclusive count, allocated memory, PartCR counters.  (Unlike
`_add_job_to_nodes`, the loop does not re-check `job->node_bitmap` for the
counter updates.) -/
def initNodeUpd (w : World) (job : Job) (jmc jmn : Nat)
    (exclusive runish : Bool) (i : Nat) (nd : NodeCRRecord) :
    NodeCRRecord :=
  let new_excl :=
    if exclusive then u16 (nd.exclusive_cnt + 1) else nd.exclusive_cnt
  let new_mem :=
    if jmc = 0 then u32 (nd.alloc_memory + jmn)
    else u32 (nd.alloc_memory + u32 (jmc * w.node_cpus i))
  let new_parts := initPartsInc runish job.part_id nd.parts
  { nd with alloc_memory := new_mem, exclusive_cnt := new_excl, parts := new_parts }

def initNodesLoop (w : World) (job : Job) (jmc jmn : Nat)
    (exclusive runish : Bool) (resrcs_bm : List Bool) :
    Nat → Nat → List NodeCRRecord → List NodeCRRecord
  | _, 0, nodes => nodes
  | i, fuel + 1, nodes =>
    let nodes2 :=
      if btest resrcs_bm i = false then nodes
      else nodes.set i (initNodeUpd w job jmc jmn exclusive runish i
        (nodes.getD i default))
    initNodesLoop w job jmc jmn exclusive runish resrcs_bm (i + 1) fuel
      nodes2

/-- The per-job step of `_init_node_cr`'s job scan: skip jobs that are
neither running nor suspended and jobs without a `job_resources` record;
register the id (run set only for running / priority-carrying suspended
jobs), then replay the per-node bookkeeping.  The memory-flag preamble is
the same computation as `allocMemFlags` with the flag set. -/
def initJobStep (w : World) (cr : CRState) (job : Job) : CRState :=
  if job.isRunning = false ∧ job.isSuspended = false then cr
  else
    match job.job_resrcs with
    | none => cr
    | some resrcs =>
      let runish := job.isRunning = true ∨
        (job.isSuspended = true ∧ job.priority ≠ 0)
      let cr1 := if runish then _add_run_job cr job.job_id else cr
      let cr2 := _add_tot_job cr1 job.job_id
      let mf := allocMemFlags w job true
      let exclusive := job.det.shared = 0
      let newNodes := initNodesLoop w job mf.1 mf.2 (decide exclusive)
        (decide runish) resrcs.node_bitmap 0 cr2.nodes.length cr2.nodes
      ⟨newNodes, cr2.run_job_ids, cr2.tot_job_ids⟩

/-- `_init_node_cr`: build the registry from the partition table and the
job list — PartCR chains per partition membership (prepended in partition
order, partitions without a bitmap contribute nothing), then every
running-or-suspended job re-added. -/
def _init_node_cr (w : World) (parts : List PartRecord) (jobs : List Job) :
    CRState :=
  let nodes0 : List NodeCRRecord := (List.range w.node_cnt).map (fun i =>
    ⟨0, 0, parts.foldl (fun acc p =>
      match p.node_bitmap with
      | none => acc
      | some bm =>
        if btest bm i then (⟨p.id, 0, 0⟩ : PartCRRecord) :: acc
        else acc) []⟩)
  jobs.foldl (initJobStep w) ⟨nodes0, [], []⟩

/-! ### Reachability (C4) -/

/-- States reachable from the empty (freshly zeroed) registry by the
registry operations with arbitrary job arguments: build from the world,
commit with either mode, release with either mode, clone. -/
inductive Reach (w : World) (parts : List PartRecord) : CRState → Prop
  | empty (n : Nat) : Reach w parts ⟨List.replicate n default, [], []⟩
  | init (jobs : List Job) : Reach w parts (_init_node_cr w parts jobs)
  | commit {s : CRState} (job : Job) (alloc_all : Bool)
      (h : Reach w parts s) :
      Reach w parts (_add_job_to_nodes w s job alloc_all).2
  | release {s : CRState} (job : Job) (remove_all : Bool)
      (h : Reach w parts s) :
      Reach w parts (_rm_job_from_nodes w s job remove_all).2
  | clone {s : CRState} (h : Reach w parts s) : Reach w parts (_dup_cr s)

/-- Like `Reach`, but every release is passed a job that still carries its
`job_resources` record (the amendment claim C4 needs). -/
inductive ReachSafe (w : World) (parts : List PartRecord) : CRState → Prop
  | empty (n : Nat) : ReachSafe w parts ⟨List.replicate n default, [], []⟩
  | init (jobs : List Job) : ReachSafe w parts (_init_node_cr w parts jobs)
  | commit {s : CRState} (job : Job) (alloc_all : Bool)
      (h : ReachSafe w parts s) :
      ReachSafe w parts (_add_job_to_nodes w s job alloc_all).2
  | release {s : CRState} (job : Job) (remove_all : Bool)
      (hres : job.job_resrcs.isSome = true) (h : ReachSafe w parts s) :
      ReachSafe w parts (_rm_job_from_nodes w s job remove_all).2
  | clone {s : CRState} (h : ReachSafe w parts s) :
      ReachSafe w parts (_dup_cr s)

/-- Invariant I5 as a predicate on states. -/
def runSubsetTot (s : CRState) : Prop :=
  ∀ id, id ≠ 0 → id ∈ s.run_job_ids → id ∈ s.tot_job_ids

def c4JobNull : Job := { c3Job with job_resrcs := none }

/-! ## The planners (`_test_only`, `_run_now`, `_will_run_test`)
and the entry point `select_p_job_test`

The planners mutate `job_ptr` (`start_time`, `total_cpus`, `job_resrcs`)
and the caller's bitmap and may fill `*preemptee_job_list`; the global
registry `cr_ptr` is only read (preemption is simulated on `_dup_cr`
clones).  All mutation is modelled by threading the values through and
returning them.  `preemptee_candidates` models the `List` argument
(`none` = `NULL`); the preemptee-list out-parameter is modelled as
`Option (Option (List Job))`: the outer layer is the `List *` pointer
(`none` = `NULL`), the inner the list it points to (`none` = `NULL` list,
created on demand).  Pointer identity in `_find_job` is modelled as value
equality of job records, and every call to `time(NULL)` within one
invocation returns the single `now` argument. -/

/-- `_is_preemptable`: the job appears in the candidate list. -/
def _is_preemptable (job : Job) (cands : Option (List Job)) : Bool :=
  match cands with
  | none => false
  | some l => decide (job ∈ l)

/-- `remove_all` as computed from `slurm_job_preempt_mode` in `_run_now`
and `_will_run_test`. -/
def preemptRemoveAll (job : Job) : Bool :=
  decide (job.preempt_mode = PREEMPT_MODE_REQUEUE ∨
    job.preempt_mode = PREEMPT_MODE_CHECKPOINT ∨
    job.preempt_mode = PREEMPT_MODE_CANCEL)

/-- The memory preamble of `_build_select_struct`
(`job_memory_cpu`, `job_memory_node`). -/
def bssMemFlags (w : World) (job : Job) : Nat × Nat :=
  if job.det.pn_min_memory ≠ 0 ∧ w.cr_type_memory = true then
    if job.det.pn_min_memory.testBit MEM_PER_CPU_BIT then
      (job.det.pn_min_memory % 2 ^ MEM_PER_CPU_BIT, 0)
    else (0, job.det.pn_min_memory)
  else (0, 0)

/-- `_build_select_struct`: build a fresh `job_resources` record for the
selected bitmap — per selected node the effective CPU count and the
allocated memory (per-node demand wins over per-CPU, slots stay zero
otherwise), `ncpus` from the job's `total_cpus`.  The loop from `bit_ffs`
to `bit_fls` with a skip guard visits exactly the set bits; the
run-length-encoded `cpu_array_*` mirror of `cpus` is not modelled. -/
def _build_select_struct (w : World) (job : Job) (bitmap : List Bool) :
    Job :=
  let mf := bssMemFlags w job
  let idxs := (List.range bitmap.length).filter (fun i => btest bitmap i)
  let cpusL := idxs.map (fun i => w.node_cpus i)
  let memL := idxs.map (fun i =>
    if mf.2 ≠ 0 then mf.2
    else if mf.1 ≠ 0 then mf.1 * w.node_cpus i
    else 0)
  let resrcs : JobResources := ⟨bitmap, cpusL, memL, job.total_cpus, bcount bitmap⟩
  { job with job_resrcs := some resrcs }

/-- The acceptance test of `_find_job_mate`'s scan (all `continue` guards
negated). -/
def fjmOk (job : Job) (bitmap : List Bool) (req_nodes : Nat) (js : Job) :
    Bool :=
  decide (js.isRunning = true ∧ js.node_cnt = req_nodes ∧
    job.det.min_cpus ≤ js.total_cpus ∧
    bsuperset js.node_bitmap bitmap = true ∧
    ¬(js.details.isSome = true ∧ job.details.isSome = true ∧
      js.det.contiguous ≠ job.det.contiguous) ∧
    (job.det.req_node_bitmap.isSome = true →
      bsuperset (job.det.req_node_bitmap.getD []) js.node_bitmap = true) ∧
    (job.det.exc_node_bitmap.isSome = true →
      boverlap (job.det.exc_node_bitmap.getD []) js.node_bitmap = false))

/-- `_find_job_mate`: find the first running job of the right size whose
nodes are all available and compatible; on a hit, restrict the bitmap to
that job's nodes and copy its `total_cpus`. -/
def _find_job_mate (job_list : List Job) (job : Job) (bitmap : List Bool)
    (min_nodes max_nodes req_nodes : Nat) : Int × List Bool × Job :=
  match job_list.find? (fjmOk job bitmap req_nodes) with
  | some js =>
    (SLURM_SUCCESS, band bitmap js.node_bitmap,
      { job with total_cpus := js.total_cpus })
  | none => (EINVAL, bitmap, job)

/-- `_test_only`: filter with both caps unlimited in `TEST_ONLY` mode;
when enough nodes survive, run the flat selector with `pn_min_memory`
temporarily zeroed (saved and restored around the call).  The `max_share`
argument is unused, as in the source. -/
def _test_only (w : World) (cr : CRState) (job : Job) (bitmap : List Bool)
    (min_nodes max_nodes req_nodes : Nat) (max_share : Int) : JobTestOut :=
  let orig_map := bitmap
  let r := _job_count_bitmap w cr job orig_map bitmap NO_SHARE_LIMIT
    NO_SHARE_LIMIT SELECT_MODE_TEST_ONLY
  if min_nodes ≤ r.2 then
    let save_mem := job.det.pn_min_memory
    let det0 := { job.det with pn_min_memory := 0 }
    let job0 := { job with details := some det0 }
    let jt := _job_test w job0 r.1 min_nodes max_nodes req_nodes
    let det1 := { jt.job.det with pn_min_memory := save_mem }
    let job1 := { jt.job with details := some det1 }
    ⟨jt.rc, jt.bitmap, job1⟩
  else ⟨SLURM_ERROR, r.1, job⟩

/-- State threaded through `_run_now`'s share-level loops:
`rc`, `prev_cnt`, the caller's bitmap and the job record. -/
structure RunNowSt where
  rc : Int
  prev_cnt : Int
  bitmap : List Bool
  job : Job
  deriving DecidableEq, Repr, Inhabited

/-- One pass of `_run_now`'s inner loop body for a given
(`max_run_job`, `sus_jobs`) pair; a no-op once `rc == SLURM_SUCCESS`
(the loop guards). -/
def runNowAttempt (w : World) (job_list : List Job) (cr : CRState)
    (orig_map : List Bool) (min_nodes max_nodes req_nodes : Nat)
    (max_run_job sus_jobs : Int) (st : RunNowSt) : RunNowSt :=
  if st.rc = SLURM_SUCCESS then st
  else
    let r := _job_count_bitmap w cr st.job orig_map st.bitmap max_run_job
      (max_run_job + sus_jobs) SELECT_MODE_RUN_NOW
    if (r.2 : Int) = st.prev_cnt ∨ r.2 < min_nodes then
      ⟨st.rc, st.prev_cnt, r.1, st.job⟩
    else if 0 < max_run_job then
      let fm := _find_job_mate job_list st.job r.1 min_nodes max_nodes
        req_nodes
      if fm.1 = SLURM_SUCCESS then ⟨SLURM_SUCCESS, r.2, fm.2.1, fm.2.2⟩
      else
        let jt := _job_test w st.job r.1 min_nodes max_nodes req_nodes
        ⟨jt.rc, r.2, jt.bitmap, jt.job⟩
    else
      let jt := _job_test w st.job r.1 min_nodes max_nodes req_nodes
      ⟨jt.rc, r.2, jt.bitmap, jt.job⟩

/-- `_run_now`'s double loop: `max_run_job` counts up to `max_share`; the
inner loop tries `sus_jobs = 0` then `4`, except on the last outer
iteration, which runs a single pass with `sus_jobs = NO_SHARE_LIMIT`.
Once `rc == SLURM_SUCCESS` every later pass is a no-op. -/
def runNowLoops (w : World) (job_list : List Job) (cr : CRState)
    (orig_map : List Bool) (min_nodes max_nodes req_nodes : Nat)
    (max_share : Int) (st0 : RunNowSt) : RunNowSt :=
  (List.range max_share.toNat).foldl (fun st k =>
    if (k : Int) = max_share - 1 then
      runNowAttempt w job_list cr orig_map min_nodes max_nodes req_nodes
        k NO_SHARE_LIMIT st
    else
      runNowAttempt w job_list cr orig_map min_nodes max_nodes req_nodes
        k 4 (runNowAttempt w job_list cr orig_map min_nodes max_nodes
          req_nodes k 0 st)) st0

/-- State of the preemption-simulation loops: `rc`, bitmap, job and the
cloned registry the simulated removals act on. -/
structure PlanSt where
  rc : Int
  bitmap : List Bool
  job : Job
  exp_cr : CRState
  deriving DecidableEq, Repr, Inhabited

/-- `_run_now`'s preemption loop: remove each running/suspended candidate
from the clone (mode-dependent `remove_all`), re-filter with
`run_cap = max_share − 1`, and retry the selector; stops at the first
success. -/
def runNowPreemptLoop (w : World) (orig_map : List Bool)
    (min_nodes max_nodes req_nodes : Nat) (max_share : Int)
    (cands : Option (List Job)) : List Job → PlanSt → PlanSt
  | [], st => st
  | tj :: rest, st =>
    if st.rc = SLURM_SUCCESS then st
    else if tj.isRunning = false ∧ tj.isSuspended = false then
      runNowPreemptLoop w orig_map min_nodes max_nodes req_nodes max_share
        cands rest st
    else if _is_preemptable tj cands = false then
      runNowPreemptLoop w orig_map min_nodes max_nodes req_nodes max_share
        cands rest st
    else
      let exp2 := (_rm_job_from_nodes w st.exp_cr tj
        (preemptRemoveAll tj)).2
      let r := _job_count_bitmap w exp2 st.job orig_map st.bitmap
        (max_share - 1) NO_SHARE_LIMIT SELECT_MODE_RUN_NOW
      if r.2 < min_nodes then
        runNowPreemptLoop w orig_map min_nodes max_nodes req_nodes
          max_share cands rest ⟨st.rc, r.1, st.job, exp2⟩
      else
        let jt := _job_test w st.job r.1 min_nodes max_nodes req_nodes
        runNowPreemptLoop w orig_map min_nodes max_nodes req_nodes
          max_share cands rest ⟨jt.rc, jt.bitmap, jt.job, exp2⟩

/-- The preemptee-list build shared by `_run_now` and `_will_run_test`:
append every candidate whose nodes overlap the selected bitmap. -/
def buildPreemptees (cands : List Job) (bitmap : List Bool)
    (init_list : List Job) : List Job :=
  cands.foldl (fun acc tj =>
    if boverlap bitmap tj.node_bitmap = false then acc else acc ++ [tj])
    init_list

/-- Planner result: return code, the caller's bitmap, the job record and
the preemptee out-parameter. -/
structure PlanOut where
  rc : Int
  bitmap : List Bool
  job : Job
  preemptees : Option (Option (List Job))
  deriving DecidableEq, Repr, Inhabited

/-- `_run_now`: share-level loops, then (still failing and given
candidates) the preemption simulation on a clone; on success the job's
`job_resources` record is built. -/
def _run_now (w : World) (job_list : List Job) (cr : CRState) (job : Job)
    (bitmap : List Bool) (min_nodes max_nodes : Nat) (max_share : Int)
    (req_nodes : Nat) (cands : Option (List Job))
    (pjl : Option (Option (List Job))) : PlanOut :=
  let orig_map := bitmap
  let st := runNowLoops w job_list cr orig_map min_nodes max_nodes
    req_nodes max_share ⟨EINVAL, -1, bitmap, job⟩
  if st.rc ≠ SLURM_SUCCESS ∧ cands.isSome = true then
    let p := runNowPreemptLoop w orig_map min_nodes max_nodes req_nodes
      max_share cands job_list ⟨st.rc, st.bitmap, st.job, _dup_cr cr⟩
    let pjl2 :=
      if p.rc = SLURM_SUCCESS ∧ pjl.isSome = true ∧ cands.isSome = true
      then
        some (some (buildPreemptees (cands.getD []) p.bitmap
          ((pjl.getD none).getD [])))
      else pjl
    let job2 := if p.rc = SLURM_SUCCESS then
        _build_select_struct w p.job p.bitmap
      else p.job
    ⟨p.rc, p.bitmap, job2, pjl2⟩
  else
    let job2 := if st.rc = SLURM_SUCCESS then
        _build_select_struct w st.job st.bitmap
      else st.job
    ⟨st.rc, st.bitmap, job2, pjl⟩

/-- `_will_run_test`'s job-scan: partition the running/suspended jobs
(with nonzero `end_time`) into preemptable ones — removed from the clone
right away — and the `cr_job_list` kept for the one-at-a-time release
phase. -/
def wrPartition (w : World) (cands : Option (List Job)) :
    List Job → CRState → List Job × CRState
  | [], exp_cr => ([], exp_cr)
  | tj :: rest, exp_cr =>
    if tj.isRunning = false ∧ tj.isSuspended = false then
      wrPartition w cands rest exp_cr
    else if tj.end_time = 0 then
      wrPartition w cands rest exp_cr
    else if _is_preemptable tj cands = true then
      wrPartition w cands rest
        (_rm_job_from_nodes w exp_cr tj (preemptRemoveAll tj)).2
    else
      let r := wrPartition w cands rest exp_cr
      (tj :: r.1, r.2)

/-- `list_sort` with `_cr_job_list_sort`: ascending `end_time`
(insertion sort; ties keep list order). -/
def insertByEnd (j : Job) : List Job → List Job
  | [] => [j]
  | x :: t =>
    if j.end_time < x.end_time then j :: x :: t else x :: insertByEnd j t

def sortByEnd : List Job → List Job
  | [] => []
  | x :: t => insertByEnd x (sortByEnd t)

/-- `_will_run_test`'s release phase: remove the sorted `cr_job_list`
jobs from the clone one at a time (`remove_all = true`), re-filter and
retry; the first success fixes `start_time` from the released job's
`end_time` (clamped to `now + 1`). -/
def wrReleaseLoop (w : World) (orig_map : List Bool)
    (min_nodes max_nodes req_nodes : Nat) (max_run_jobs : Int)
    (now : Nat) : List Job → PlanSt → PlanSt
  | [], st => st
  | tj :: rest, st =>
    if st.rc = SLURM_SUCCESS then st
    else
      let exp2 := (_rm_job_from_nodes w st.exp_cr tj true).2
      let r := _job_count_bitmap w exp2 st.job orig_map st.bitmap
        max_run_jobs NO_SHARE_LIMIT SELECT_MODE_RUN_NOW
      if r.2 < min_nodes then
        wrReleaseLoop w orig_map min_nodes max_nodes req_nodes
          max_run_jobs now rest ⟨st.rc, r.1, st.job, exp2⟩
      else
        let jt := _job_test w st.job r.1 min_nodes max_nodes req_nodes
        if jt.rc ≠ SLURM_SUCCESS then
          wrReleaseLoop w orig_map min_nodes max_nodes req_nodes
            max_run_jobs now rest ⟨jt.rc, jt.bitmap, jt.job, exp2⟩
        else
          let stime := if tj.end_time ≤ now then now + 1 else tj.end_time
          ⟨SLURM_SUCCESS, jt.bitmap, { jt.job with start_time := stime },
            exp2⟩

/-- Body of `_will_run_test` below the `max_run_jobs` computation: first
attempt on the live registry (success returns immediately with
`start_time = now`); otherwise clone, drop the preemptable jobs, retry
with them gone (`start_time = now + 1` on success), then release the
remaining jobs one at a time; finally fill the preemptee list. -/
def wrTestCore (w : World) (job_list : List Job) (cr : CRState) (job : Job)
    (bitmap : List Bool) (min_nodes max_nodes : Nat) (max_run_jobs : Int)
    (req_nodes now : Nat) (cands : Option (List Job))
    (pjl : Option (Option (List Job))) : PlanOut :=
  let orig_map := bitmap
  let r := _job_count_bitmap w cr job orig_map bitmap max_run_jobs
    NO_SHARE_LIMIT SELECT_MODE_WILL_RUN
  let jt1 : JobTestOut :=
    if min_nodes ≤ r.2 then
      _job_test w job r.1 min_nodes max_nodes req_nodes
    else ⟨SLURM_ERROR, r.1, job⟩
  if min_nodes ≤ r.2 ∧ jt1.rc = SLURM_SUCCESS then
    ⟨SLURM_SUCCESS, jt1.bitmap, { jt1.job with start_time := now }, pjl⟩
  else
    let part := wrPartition w cands job_list (_dup_cr cr)
    let ph2 : PlanSt :=
      if cands.isSome = true then
        let r2 := _job_count_bitmap w part.2 jt1.job orig_map jt1.bitmap
          max_run_jobs NO_SHARE_LIMIT SELECT_MODE_RUN_NOW
        if min_nodes ≤ r2.2 then
          let jt2 := _job_test w jt1.job r2.1 min_nodes max_nodes req_nodes
          if jt2.rc = SLURM_SUCCESS then
            ⟨SLURM_SUCCESS, jt2.bitmap,
              { jt2.job with start_time := now + 1 }, part.2⟩
          else ⟨jt2.rc, jt2.bitmap, jt2.job, part.2⟩
        else ⟨jt1.rc, r2.1, jt1.job, part.2⟩
      else ⟨jt1.rc, jt1.bitmap, jt1.job, part.2⟩
    let ph3 : PlanSt :=
      if ph2.rc ≠ SLURM_SUCCESS then
        wrReleaseLoop w orig_map min_nodes max_nodes req_nodes
          max_run_jobs now (sortByEnd part.1) ph2
      else ph2
    let pjl2 :=
      if ph3.rc = SLURM_SUCCESS ∧ pjl.isSome = true ∧ cands.isSome = true
      then
        some (some (buildPreemptees (cands.getD []) ph3.bitmap
          ((pjl.getD none).getD [])))
      else pjl
    ⟨ph3.rc, ph3.bitmap, ph3.job, pjl2⟩

/-- `_will_run_test`: the source computes
`max_run_jobs = MAX((max_share - 1), 1)` and hands everything to the
phases of `wrTestCore`. -/
def _will_run_test (w : World) (job_list : List Job) (cr : CRState)
    (job : Job) (bitmap : List Bool) (min_nodes max_nodes : Nat)
    (max_share : Int) (req_nodes now : Nat) (cands : Option (List Job))
    (pjl : Option (Option (List Job))) : PlanOut :=
  wrTestCore w job_list cr job bitmap min_nodes max_nodes
    (max (max_share - 1) 1) req_nodes now cands pjl

/-- The WILL_RUN planner as the spec describes it, for comparison with
`_will_run_test`: identical except that the first attempt's run cap is
`max_share − 1` with no clamping. -/
def willRunTestSpecCap (w : World) (job_list : List Job) (cr : CRState)
    (job : Job) (bitmap : List Bool) (min_nodes max_nodes : Nat)
    (max_share : Int) (req_nodes now : Nat) (cands : Option (List Job))
    (pjl : Option (Option (List Job))) : PlanOut :=
  wrTestCore w job_list cr job bitmap min_nodes max_nodes (max_share - 1)
    req_nodes now cands pjl

/-- Return-or-abort outcome of `select_p_job_test`: `fatalError` models
the `fatal()` call, which terminates the daemon instead of returning. -/
inductive Outcome where
  | ok (rc : Int)
  | fatalError
  deriving DecidableEq, Repr, Inhabited

/-- Result of `select_p_job_test`: outcome, the (possibly lazily
initialized) registry, the caller's bitmap, the job record and the
preemptee out-parameter. -/
structure SPResult where
  outcome : Outcome
  cr : Option CRState
  bitmap : List Bool
  job : Job
  preemptees : Option (Option (List Job))
  deriving DecidableEq, Repr, Inhabited

/-- `select_p_job_test`: null `details` → `EINVAL` (before the lazy
registry build); lazy `_init_node_cr` when the registry is absent; a
bitmap with fewer set bits than `min_nodes` → `EINVAL`; `max_share` from
the partition (`& ~SHARED_FORCE`) when the job shares, else `1`;
dispatch on the mode, any other mode hitting `fatal()`. -/
def select_p_job_test (w : World) (parts : List PartRecord)
    (job_list : List Job) (now : Nat) (cr0 : Option CRState) (job : Job)
    (bitmap : List Bool) (min_nodes max_nodes req_nodes mode : Nat)
    (cands : Option (List Job)) (pjl : Option (Option (List Job))) :
    SPResult :=
  if job.details.isNone = true then
    ⟨Outcome.ok EINVAL, cr0, bitmap, job, pjl⟩
  else
    let cr := match cr0 with
      | some s => s
      | none => _init_node_cr w parts job_list
    if bcount bitmap < min_nodes then
      ⟨Outcome.ok EINVAL, some cr, bitmap, job, pjl⟩
    else
      let max_share : Int :=
        if job.det.shared ≠ 0 then
          ((Nat.land job.part_max_share 0x7fff : Nat) : Int)
        else 1
      if mode = SELECT_MODE_WILL_RUN then
        let p := _will_run_test w job_list cr job bitmap min_nodes
          max_nodes max_share req_nodes now cands pjl
        ⟨Outcome.ok p.rc, some cr, p.bitmap, p.job, p.preemptees⟩
      else if mode = SELECT_MODE_TEST_ONLY then
        let t := _test_only w cr job bitmap min_nodes max_nodes req_nodes
          max_share
        ⟨Outcome.ok t.rc, some cr, t.bitmap, t.job, pjl⟩
      else if mode = SELECT_MODE_RUN_NOW then
        let p := _run_now w job_list cr job bitmap min_nodes max_nodes
          max_share req_nodes cands pjl
        ⟨Outcome.ok p.rc, some cr, p.bitmap, p.job, p.preemptees⟩
      else ⟨Outcome.fatalError, some cr, bitmap, job, pjl⟩

/-! ### Scenario for C5: one node, 4 CPUs, one running job registered in
the registry, `max_share = 1` (exclusive job). -/

def c5World : World :=
  { node_cnt := 1, node_cpus := fun _ => 4, real_memory := fun _ => 100,
    avail_cpus := fun _ => 4, gres_cpus := fun _ _ => NO_VAL,
    cr_type_memory := true }

def c5CR : CRState := ⟨[⟨0, 0, [⟨1, 1, 1⟩]⟩], [3], [3]⟩

def c5Details : JobDetails :=
  { pn_min_memory := 0, min_cpus := 1, req_node_bitmap := none,
    exc_node_bitmap := none, contiguous := false, shared := 1 }

def c5Job : Job :=
  { job_id := 9, part_id := 1, details := some c5Details,
    node_bitmap := [true], job_resrcs := none, total_cpus := 0,
    node_cnt := 0, state := JobState.pending, priority := 1, end_time := 0,
    start_time := 0, preempt_mode := 0, part_max_share := 1 }

def c8Job : Job := { c2Job with details := none }

/-! ## Theorems -/

/-! ### Bitmap lemmas -/

theorem btest_set (bm : List Bool) (k j : Nat) (b : Bool) :
    btest (bm.set k b) j = if k = j ∧ k < bm.length then b else btest bm j := by
  unfold btest
  rw [List.getD_eq_getElem?_getD, List.getD_eq_getElem?_getD, List.getElem?_set]
  by_cases hkj : k = j
  · subst hkj
    by_cases hk : k < bm.length
    · simp [hk]
    · simp [hk, List.getElem?_eq_none (Nat.le_of_not_lt hk)]
  · simp [hkj]

theorem length_set (bm : List Bool) (k : Nat) (b : Bool) :
    (bm.set k b).length = bm.length := by simp

theorem bffsAux_le {bm : List Bool} {s j : Nat} (h : btest bm j = true) :
    ∃ f, bffsAux bm s = some f ∧ f ≤ s + j := by
  induction bm generalizing s j with
  | nil => simp [btest] at h
  | cons hd tl ih =>
    by_cases hh : hd
    · exact ⟨s, by simp [bffsAux, hh], by omega⟩
    · cases j with
      | zero => simp [btest, hh] at h
      | succ j =>
        have h' : btest tl j = true := h
        obtain ⟨f, hf, hfle⟩ := ih (s := s + 1) h'
        refine ⟨f, by simp [bffsAux, hh, hf], by omega⟩

theorem bffsAux_min {bm : List Bool} {s f j : Nat} (hf : bffsAux bm s = some f)
    (hj : s + j < f) : btest bm j = false := by
  induction bm generalizing s j with
  | nil => simp [btest]
  | cons hd tl ih =>
    by_cases hh : hd
    · simp [bffsAux, hh] at hf; omega
    · simp only [bffsAux, hh, if_false] at hf
      cases j with
      | zero => simp [btest, hh]
      | succ j => exact ih hf (by omega)

theorem bflsAux_eq (bm : List Bool) (s : Nat) (acc : Option Nat) :
    bflsAux bm s acc =
      match lastSet bm with
      | some p => some (s + p)
      | none => acc := by
  induction bm generalizing s acc with
  | nil => simp [bflsAux, lastSet]
  | cons hd tl ih =>
    simp only [bflsAux, lastSet, ih]
    cases h : lastSet tl with
    | some p => simp [h, Nat.add_assoc, Nat.add_comm 1 p]
    | none => cases hd <;> simp [h]

theorem lastSet_none {bm : List Bool} (h : lastSet bm = none) (j : Nat) :
    btest bm j = false := by
  induction bm generalizing j with
  | nil => simp [btest]
  | cons hd tl ih =>
    simp only [lastSet] at h
    cases hl : lastSet tl with
    | some p => simp [hl] at h
    | none =>
      simp only [hl] at h
      cases hd with
      | false =>
        cases j with
        | zero => simp [btest]
        | succ j => exact ih hl j
      | true => simp at h

theorem lastSet_ge {bm : List Bool} {j : Nat} (h : btest bm j = true) :
    ∃ l, lastSet bm = some l ∧ j ≤ l := by
  induction bm generalizing j with
  | nil => simp [btest] at h
  | cons hd tl ih =>
    cases j with
    | zero =>
      cases hl : lastSet tl with
      | some p => exact ⟨p + 1, by simp [lastSet, hl], by omega⟩
      | none =>
        have hh : hd = true := h
        exact ⟨0, by simp [lastSet, hl, hh], Nat.le_refl 0⟩
    | succ j =>
      obtain ⟨p, hp, hle⟩ := ih (j := j) h
      exact ⟨p + 1, by simp [lastSet, hp], by omega⟩

theorem lastSet_max {bm : List Bool} {l j : Nat} (h : lastSet bm = some l)
    (hj : l < j) : btest bm j = false := by
  induction bm generalizing l j with
  | nil => simp [btest]
  | cons hd tl ih =>
    simp only [lastSet] at h
    cases hl : lastSet tl with
    | some p =>
      rw [hl] at h
      have hpl : p + 1 = l := by simpa using h
      cases j with
      | zero => omega
      | succ j => exact ih hl (by omega)
    | none =>
      rw [hl] at h
      cases hd with
      | false => simp at h
      | true =>
        have hl0 : l = 0 := by simpa using h.symm
        cases j with
        | zero => omega
        | succ j => exact lastSet_none hl j

theorem lastSet_lt_length {bm : List Bool} {l : Nat} (h : lastSet bm = some l) :
    l < bm.length := by
  induction bm generalizing l with
  | nil => simp [lastSet] at h
  | cons hd tl ih =>
    simp only [lastSet] at h
    cases hl : lastSet tl with
    | some p =>
      rw [hl] at h
      have := ih hl
      simp at h
      simp
      omega
    | none =>
      rw [hl] at h
      cases hd with
      | false => simp at h
      | true =>
        have : l = 0 := by simpa using h.symm
        simp
        omega

theorem bfls_eq_lastSet (bm : List Bool) : bfls bm = lastSet bm := by
  rw [bfls, bflsAux_eq]
  cases lastSet bm <;> simp

/-! ### Job-id array lemmas -/

theorem fillFirstZero_spec {id : Nat} {l l2 : List Nat}
    (h : fillFirstZero id l = some l2) :
    ∃ pre suf, l = pre ++ 0 :: suf ∧ l2 = pre ++ id :: suf ∧ (0 : Nat) ∉ pre := by
  induction l generalizing l2 with
  | nil => simp [fillFirstZero] at h
  | cons x t ih =>
    by_cases hx : x = 0
    · subst hx
      have h2 : some (id :: t) = some l2 := h
      exact ⟨[], t, rfl, (Option.some.inj h2).symm, by simp⟩
    · simp only [fillFirstZero, if_neg hx] at h
      cases hft : fillFirstZero id t with
      | none => rw [hft] at h; exact Option.noConfusion h
      | some t2 =>
        rw [hft] at h
        have h4 : x :: t2 = l2 := Option.some.inj h
        obtain ⟨pre, suf, h1, h2, h3⟩ := ih hft
        refine ⟨x :: pre, suf, by simp [h1], ?_, ?_⟩
        · rw [← h4, h2]
          rfl
        · intro hc
          rcases List.mem_cons.mp hc with hc | hc
          · exact hx hc.symm
          · exact h3 hc

theorem remJobId_not_mem {l : List Nat} {id x : Nat} (hx : x ≠ 0)
    (h : x ∈ remJobId l id) : x ∈ l ∧ x ≠ id := by
  induction l with
  | nil => simp [remJobId] at h
  | cons y t ih =>
    simp only [remJobId, List.map_cons, List.mem_cons] at h
    rcases h with h | h
    · by_cases hy : y = id
      · rw [if_pos hy] at h; exact absurd h hx
      · rw [if_neg hy] at h; exact ⟨by simp [h], by rw [h]; exact hy⟩
    · have := ih h
      exact ⟨List.mem_cons_of_mem y this.1, this.2⟩

theorem remJobId_mem {l : List Nat} {id x : Nat} (hx : x ≠ id)
    (h : x ∈ l) : x ∈ remJobId l id := by
  induction l with
  | nil => simp at h
  | cons y t ih =>
    simp only [remJobId, List.map_cons, List.mem_cons]
    rcases List.mem_cons.mp h with h | h
    · subst h
      rw [if_neg hx]
      exact Or.inl rfl
    · exact Or.inr (ih h)

theorem addJobId_mem {l : List Nat} {id x : Nat} (h : x ∈ addJobId l id) :
    x = id ∨ x ∈ l ∨ x = 0 := by
  unfold addJobId at h
  by_cases he : l.isEmpty
  · rw [if_pos he] at h
    rcases List.mem_cons.mp h with h | h
    · exact Or.inl h
    · exact Or.inr (Or.inr (List.eq_of_mem_replicate h))
  · rw [if_neg he] at h
    cases hf : fillFirstZero id l with
    | some l2 =>
      rw [hf] at h
      obtain ⟨pre, suf, h1, h2, _⟩ := fillFirstZero_spec hf
      subst h1 h2
      simp only [List.mem_append, List.mem_cons] at h ⊢
      rcases h with h | h | h
      · exact Or.inr (Or.inl (Or.inl h))
      · exact Or.inl h
      · exact Or.inr (Or.inl (Or.inr (Or.inr h)))
    | none =>
      rw [hf] at h
      rcases List.mem_append.mp h with h | h
      · exact Or.inr (Or.inl h)
      · rcases List.mem_cons.mp h with h | h
        · exact Or.inl h
        · exact Or.inr (Or.inr (List.eq_of_mem_replicate h))

theorem mem_addJobId (l : List Nat) (id : Nat) : id ∈ addJobId l id := by
  unfold addJobId
  by_cases he : l.isEmpty
  · simp [he]
  · rw [if_neg he]
    cases hf : fillFirstZero id l with
    | some l2 =>
      obtain ⟨pre, suf, _, h2, _⟩ := fillFirstZero_spec hf
      subst h2
      simp
    | none => simp

theorem mem_addJobId_of_mem {l : List Nat} {id x : Nat} (hx : x ≠ 0)
    (h : x ∈ l) : x ∈ addJobId l id := by
  unfold addJobId
  by_cases he : l.isEmpty
  · rw [List.isEmpty_iff] at he
    subst he
    simp at h
  · rw [if_neg he]
    cases hf : fillFirstZero id l with
    | some l2 =>
      obtain ⟨pre, suf, h1, h2, _⟩ := fillFirstZero_spec hf
      subst h1 h2
      simp only [List.mem_append, List.mem_cons] at h ⊢
      rcases h with h | h | h
      · exact Or.inl h
      · exact absurd h hx
      · exact Or.inr (Or.inr h)
    | none => exact List.mem_append_left _ h

theorem map_rem_of_not_mem {id : Nat} {m : List Nat} (hm : id ∉ m) :
    List.map (fun x => if x = id then 0 else x) m = m := by
  induction m with
  | nil => rfl
  | cons y t ih =>
    have hy : y ≠ id := by rintro rfl; exact hm (List.mem_cons_self _ _)
    simp only [List.map_cons, if_neg hy,
      ih (fun h => hm (List.mem_cons_of_mem _ h))]

theorem map_rem_replicate_zero (id n : Nat) :
    List.map (fun x => if x = id then 0 else x) (List.replicate n 0) =
      List.replicate n 0 := by
  induction n with
  | zero => rfl
  | succ n ih => simp [List.replicate_succ, ih, ite_self]

theorem filter_ne_replicate_zero (n : Nat) :
    (List.replicate n 0).filter (fun x : Nat => x != 0) = [] := by
  induction n with
  | zero => rfl
  | succ n ih => simpa [List.replicate_succ] using ih

/-- Adding a fresh nonzero id and then clearing it restores the array up to
zero slots (exact equality of the nonzero sub-sequences). -/
theorem remJobId_addJobId_filter {l : List Nat} {id : Nat} (hid : id ≠ 0)
    (hmem : id ∉ l) :
    (remJobId (addJobId l id) id).filter (fun x => x != 0) =
      l.filter (fun x => x != 0) := by
  unfold addJobId
  by_cases he : l.isEmpty
  · rw [List.isEmpty_iff] at he
    subst he
    show ((if id = id then 0 else id) ::
      List.map (fun x => if x = id then 0 else x)
        (List.replicate (RUN_JOB_INCR - 1) 0)).filter (fun x => x != 0) =
      List.filter (fun x => x != 0) []
    rw [if_pos rfl, map_rem_replicate_zero]
    simpa using filter_ne_replicate_zero (RUN_JOB_INCR - 1)
  · rw [if_neg he]
    cases hf : fillFirstZero id l with
    | some l2 =>
      obtain ⟨pre, suf, h1, h2, _⟩ := fillFirstZero_spec hf
      subst h1 h2
      have hpre : id ∉ pre := fun h => hmem (List.mem_append_left _ h)
      have hsuf : id ∉ suf := fun h =>
        hmem (List.mem_append_right _ (List.mem_cons_of_mem _ h))
      show (List.map (fun x => if x = id then 0 else x)
        (pre ++ id :: suf)).filter (fun x => x != 0) = _
      rw [List.map_append, List.map_cons, if_pos rfl,
        map_rem_of_not_mem hpre, map_rem_of_not_mem hsuf]
    | none =>
      show (List.map (fun x => if x = id then 0 else x)
        (l ++ id :: List.replicate (RUN_JOB_INCR - 1) 0)).filter
        (fun x => x != 0) = _
      rw [List.map_append, List.map_cons, if_pos rfl,
        map_rem_of_not_mem hmem, map_rem_replicate_zero,
        List.filter_append]
      simp [filter_ne_replicate_zero]

theorem jcbBody_eq (w : World) (cr : CRState) (jmc jmn : Nat)
    (rc tc : Int) (mode : Nat) (bitmap : List Bool)
    (i : Nat) (jobmap : List Bool) (count : Nat) :
    jcbBody w cr jmc jmn rc tc mode bitmap i jobmap count =
      if jcbDecision w cr jmc jmn rc tc mode bitmap i then
        (bset jobmap i, count + 1)
      else (bclear jobmap i, count) := by
  unfold jcbBody
  by_cases h1 : btest bitmap i = false
  · rw [if_pos h1, if_neg (fun hc => by
      unfold jcbDecision at hc
      rw [h1] at hc
      exact Bool.false_ne_true hc.1)]
  · rw [if_neg h1]
    rw [Bool.not_eq_false] at h1
    show (if (w.gres_cpus (decide (mode = SELECT_MODE_TEST_ONLY)) i ≠ NO_VAL ∧
        w.gres_cpus (decide (mode = SELECT_MODE_TEST_ONLY)) i < w.node_cpus i)
      then _ else _) = _
    by_cases h2 : w.gres_cpus (decide (mode = SELECT_MODE_TEST_ONLY)) i ≠ NO_VAL ∧
        w.gres_cpus (decide (mode = SELECT_MODE_TEST_ONLY)) i < w.node_cpus i
    · rw [if_pos h2, if_neg (fun hc => hc.2.1 h2)]
    · rw [if_neg h2]
      by_cases h3 : mode = SELECT_MODE_TEST_ONLY
      · rw [if_pos h3, if_pos ⟨h1, h2, Or.inl h3⟩]
      · rw [if_neg h3]
        by_cases h4 : (jmc ≠ 0 ∨ jmn ≠ 0) ∧
            u32 ((cr.nodes.getD i default).alloc_memory +
              (if jmc ≠ 0 then u32 (jmc * w.node_cpus i) else jmn)) >
              w.real_memory i
        · rw [if_pos h4, if_neg (fun hc => by
            rcases hc.2.2 with hm | hrest
            · exact h3 hm
            · exact hrest.1 h4)]
        · rw [if_neg h4]
          by_cases h5 : (cr.nodes.getD i default).exclusive_cnt ≠ 0
          · rw [if_pos h5, if_neg (fun hc => by
              rcases hc.2.2 with hm | hrest
              · exact h3 hm
              · exact h5 hrest.2.1)]
          · rw [if_neg h5]
            rw [Decidable.not_not] at h5
            by_cases h6 : (((cr.nodes.getD i default).parts.map
                  (·.run_job_cnt)).sum : Int) ≤ rc ∧
                (((cr.nodes.getD i default).parts.map
                  (·.tot_job_cnt)).sum : Int) ≤ tc
            · rw [if_pos h6, if_pos ⟨h1, h2, Or.inr ⟨h4, h5, h6.1, h6.2⟩⟩]
            · rw [if_neg h6, if_neg (fun hc => by
                rcases hc.2.2 with hm | hrest
                · exact h3 hm
                · exact h6 ⟨hrest.2.2.1, hrest.2.2.2⟩)]

theorem jcbBody_length (w : World) (cr : CRState) (jmc jmn : Nat)
    (rc tc : Int) (mode : Nat) (bitmap : List Bool) (i : Nat)
    (jobmap : List Bool) (count : Nat) :
    (jcbBody w cr jmc jmn rc tc mode bitmap i jobmap count).1.length =
      jobmap.length := by
  rw [jcbBody_eq]
  split <;> simp [bset, bclear]

theorem jcbLoop_length (w : World) (cr : CRState) (jmc jmn : Nat)
    (rc tc : Int) (mode : Nat) (bitmap : List Bool) (i fuel : Nat)
    (jobmap : List Bool) (count : Nat) :
    (jcbLoop w cr jmc jmn rc tc mode bitmap i fuel jobmap count).1.length =
      jobmap.length := by
  induction fuel generalizing i jobmap count with
  | zero => rfl
  | succ fuel ih =>
    show (jcbLoop w cr jmc jmn rc tc mode bitmap (i + 1) fuel _ _).1.length = _
    rw [ih, jcbBody_length]

theorem jcbLoop_get (w : World) (cr : CRState) (jmc jmn : Nat)
    (rc tc : Int) (mode : Nat) (bitmap : List Bool) (i fuel : Nat)
    (jobmap : List Bool) (count : Nat) (j : Nat) (hj : j < jobmap.length) :
    btest (jcbLoop w cr jmc jmn rc tc mode bitmap i fuel jobmap count).1 j =
      if i ≤ j ∧ j < i + fuel then
        decide (jcbDecision w cr jmc jmn rc tc mode bitmap j)
      else btest jobmap j := by
  induction fuel generalizing i jobmap count with
  | zero =>
    rw [if_neg (show ¬(i ≤ j ∧ j < i + 0) by omega)]
    rfl
  | succ fuel ih =>
    show btest (jcbLoop w cr jmc jmn rc tc mode bitmap (i + 1) fuel
      (jcbBody w cr jmc jmn rc tc mode bitmap i jobmap count).1
      (jcbBody w cr jmc jmn rc tc mode bitmap i jobmap count).2).1 j = _
    rw [ih _ _ _ (by rw [jcbBody_length]; exact hj)]
    by_cases hr : i + 1 ≤ j ∧ j < i + 1 + fuel
    · rw [if_pos hr, if_pos (show i ≤ j ∧ j < i + (fuel + 1) by omega)]
    · rw [if_neg hr]
      by_cases hij : i = j
      · subst hij
        rw [if_pos (show i ≤ i ∧ i < i + (fuel + 1) by omega)]
        rw [jcbBody_eq]
        by_cases hd : jcbDecision w cr jmc jmn rc tc mode bitmap i
        · rw [if_pos hd]
          show btest (bset jobmap i) i = _
          rw [bset, btest_set, if_pos ⟨rfl, hj⟩, decide_eq_true hd]
        · rw [if_neg hd]
          show btest (bclear jobmap i) i = _
          rw [bclear, btest_set, if_pos ⟨rfl, hj⟩,
            decide_eq_false hd]
      · rw [if_neg (show ¬(i ≤ j ∧ j < i + (fuel + 1)) by omega)]
        rw [jcbBody_eq]
        by_cases hd : jcbDecision w cr jmc jmn rc tc mode bitmap i
        · rw [if_pos hd]
          show btest (bset jobmap i) j = _
          rw [bset, btest_set, if_neg (fun hc => hij hc.1)]
        · rw [if_neg hd]
          show btest (bclear jobmap i) j = _
          rw [bclear, btest_set, if_neg (fun hc => hij hc.1)]

theorem jcbLoop_count (w : World) (cr : CRState) (jmc jmn : Nat)
    (rc tc : Int) (mode : Nat) (bitmap : List Bool) (i fuel : Nat)
    (jobmap : List Bool) (count : Nat) :
    (jcbLoop w cr jmc jmn rc tc mode bitmap i fuel jobmap count).2 =
      count + (List.range' i fuel).countP
        (fun j => decide (jcbDecision w cr jmc jmn rc tc mode bitmap j)) := by
  induction fuel generalizing i jobmap count with
  | zero => rfl
  | succ fuel ih =>
    show (jcbLoop w cr jmc jmn rc tc mode bitmap (i + 1) fuel
      (jcbBody w cr jmc jmn rc tc mode bitmap i jobmap count).1
      (jcbBody w cr jmc jmn rc tc mode bitmap i jobmap count).2).2 = _
    rw [ih, jcbBody_eq, List.range'_succ, List.countP_cons]
    by_cases hd : jcbDecision w cr jmc jmn rc tc mode bitmap i
    · rw [if_pos hd]
      simp [hd]
      omega
    · rw [if_neg hd]
      simp [hd]

theorem btest_lt_length {bm : List Bool} {j : Nat} (h : btest bm j = true) :
    j < bm.length := by
  by_contra hc
  rw [btest, List.getD_eq_getElem?_getD, List.getElem?_eq_none (by omega)] at h
  simp at h

/-- The spec's memory-demand formula, with the two `pn_min_memory` encodings
resolved: per-CPU demand when bit 31 is set, per-node demand otherwise. -/
theorem specJobMem_eq (w : World) (det : JobDetails) (i : Nat) :
    specJobMem w det i =
      if det.pn_min_memory.testBit MEM_PER_CPU_BIT then
        det.pn_min_memory % 2 ^ MEM_PER_CPU_BIT * w.node_cpus i
      else det.pn_min_memory := by
  unfold specJobMem
  by_cases htb : det.pn_min_memory.testBit MEM_PER_CPU_BIT
  · simp only [htb, if_true]
    by_cases hz : det.pn_min_memory % 2 ^ MEM_PER_CPU_BIT = 0
    · simp [hz]
    · simp [hz]
  · simp only [htb, if_false, Bool.false_eq_true]
    simp

/-- At a set input bit, the code's per-node decision coincides with the
claim's predicate, provided `cr_type == CR_MEMORY`, the addition
`alloc_memory + job_mem` does not overflow `uint32_t`, and the node is not
already over-committed (`alloc_memory ≤ real_memory`, invariant I2). -/
theorem jcbDecision_iff_specNodeAvail (w : World) (cr : CRState)
    (det : JobDetails) (rc tc : Int) (mode : Nat) (bitmap : List Bool)
    (i : Nat) (hmode : mode ≠ SELECT_MODE_TEST_ONLY)
    (hcrt : w.cr_type_memory = true)
    (hbit : btest bitmap i = true)
    (hof : (cr.nodes.getD i default).alloc_memory + specJobMem w det i <
      2 ^ 32)
    (hinv : (cr.nodes.getD i default).alloc_memory ≤ w.real_memory i) :
    (jcbDecision w cr (jcbMemFlags w det mode).1 (jcbMemFlags w det mode).2
        rc tc mode bitmap i ↔ specNodeAvail w cr det rc tc i) := by
  have hdec : decide (mode = SELECT_MODE_TEST_ONLY) = false :=
    decide_eq_false hmode
  have hgres_iff :
      ¬(w.gres_cpus false i ≠ NO_VAL ∧ w.gres_cpus false i < w.node_cpus i) ↔
      (w.gres_cpus false i = NO_VAL ∨ w.node_cpus i ≤ w.gres_cpus false i) := by
    constructor
    · intro h
      by_cases hnv : w.gres_cpus false i = NO_VAL
      · exact Or.inl hnv
      · refine Or.inr ?_
        by_contra hc
        exact h ⟨hnv, by omega⟩
    · rintro (h | h) ⟨h1, h2⟩
      · exact h1 h
      · omega
  have hmem_iff :
      ¬(((jcbMemFlags w det mode).1 ≠ 0 ∨ (jcbMemFlags w det mode).2 ≠ 0) ∧
        u32 ((cr.nodes.getD i default).alloc_memory +
          (if (jcbMemFlags w det mode).1 ≠ 0 then
            u32 ((jcbMemFlags w det mode).1 * w.node_cpus i)
          else (jcbMemFlags w det mode).2)) > w.real_memory i) ↔
      (cr.nodes.getD i default).alloc_memory + specJobMem w det i ≤
        w.real_memory i := by
    by_cases hpn : det.pn_min_memory = 0
    · have hf : jcbMemFlags w det mode = (0, 0) := by
        unfold jcbMemFlags
        rw [if_neg (fun hc => hc.2.1 hpn)]
      have hsm : specJobMem w det i = 0 := by
        rw [specJobMem_eq, hpn]
        simp [Nat.zero_testBit]
      rw [hf, hsm]
      simp only [ne_eq, not_true_eq_false, or_self, false_and,
        not_false_eq_true, true_iff]
      omega
    · have hf : jcbMemFlags w det mode =
          if det.pn_min_memory.testBit MEM_PER_CPU_BIT then
            (det.pn_min_memory % 2 ^ MEM_PER_CPU_BIT, 0)
          else (0, det.pn_min_memory) := by
        unfold jcbMemFlags
        rw [if_pos ⟨hmode, hpn, hcrt⟩]
      by_cases htb : det.pn_min_memory.testBit MEM_PER_CPU_BIT
      · rw [if_pos htb] at hf
        have hsm : specJobMem w det i =
            det.pn_min_memory % 2 ^ MEM_PER_CPU_BIT * w.node_cpus i := by
          rw [specJobMem_eq, if_pos htb]
        by_cases hjmc : det.pn_min_memory % 2 ^ MEM_PER_CPU_BIT = 0
        · rw [hf, hsm, hjmc]
          simp only [ne_eq, not_true_eq_false, or_self, false_and,
            not_false_eq_true, true_iff]
          omega
        · rw [hf, hsm]
          simp only [ne_eq, hjmc, not_false_eq_true, if_true, true_or,
            true_and]
          rw [hsm] at hof
          have h1 : u32 (det.pn_min_memory % 2 ^ MEM_PER_CPU_BIT *
              w.node_cpus i) =
              det.pn_min_memory % 2 ^ MEM_PER_CPU_BIT * w.node_cpus i :=
            Nat.mod_eq_of_lt (by omega)
          rw [h1]
          have h2 : u32 ((cr.nodes.getD i default).alloc_memory +
              det.pn_min_memory % 2 ^ MEM_PER_CPU_BIT * w.node_cpus i) =
              (cr.nodes.getD i default).alloc_memory +
              det.pn_min_memory % 2 ^ MEM_PER_CPU_BIT * w.node_cpus i :=
            Nat.mod_eq_of_lt hof
          rw [h2]
          omega
      · rw [if_neg htb] at hf
        have hsm : specJobMem w det i = det.pn_min_memory := by
          rw [specJobMem_eq, if_neg htb]
        rw [hf]
        rw [hsm] at hof ⊢
        simp only [ne_eq, not_true_eq_false, false_or, not_false_eq_true,
          if_false]
        simp only [u32]
        omega
  unfold jcbDecision specNodeAvail
  rw [hdec]
  constructor
  · rintro ⟨_, hg, hrest⟩
    rcases hrest with hm | ⟨hmem, hexcl, hrun, htot⟩
    · exact absurd hm hmode
    · exact ⟨hgres_iff.mp hg, hmem_iff.mp hmem, hexcl, hrun, htot⟩
  · rintro ⟨hg, hmem, hexcl, hrun, htot⟩
    exact ⟨hbit, hgres_iff.mpr hg,
      Or.inr ⟨hmem_iff.mpr hmem, hexcl, hrun, htot⟩⟩

theorem bffs_some_btest {bm : List Bool} {f : Nat} (h : bffs bm = some f) :
    btest bm f = true := by
  rw [bffs] at h
  suffices hgen : ∀ (l : List Bool) (s g : Nat), bffsAux l s = some g →
      s ≤ g ∧ btest l (g - s) = true by
    have := (hgen bm 0 f h).2
    simpa using this
  intro l
  induction l with
  | nil => intro s g h2; exact Option.noConfusion h2
  | cons b t ih =>
    intro s g h2
    by_cases hb : b
    · rw [show bffsAux (b :: t) s = some s by simp [bffsAux, hb]] at h2
      have : s = g := Option.some.inj h2
      subst this
      simpa [btest, Nat.sub_self] using hb
    · rw [show bffsAux (b :: t) s = bffsAux t (s + 1) by simp [bffsAux, hb]]
        at h2
      obtain ⟨hle, hbt⟩ := ih (s + 1) g h2
      refine ⟨by omega, ?_⟩
      have : g - s = (g - (s + 1)) + 1 := by omega
      rw [this]
      exact hbt

theorem lastSet_some_btest {bm : List Bool} {l : Nat}
    (h : lastSet bm = some l) : btest bm l = true := by
  induction bm generalizing l with
  | nil => exact Option.noConfusion h
  | cons b t ih =>
    simp only [lastSet] at h
    cases hl : lastSet t with
    | some p =>
      rw [hl] at h
      have : p + 1 = l := Option.some.inj h
      subst this
      exact ih hl
    | none =>
      rw [hl] at h
      cases b with
      | false => exact Option.noConfusion h
      | true =>
        have : (0 : Nat) = l := Option.some.inj (by simpa using h)
        subst this
        rfl

theorem mem_range'_iff {s n j : Nat} : j ∈ List.range' s n ↔ s ≤ j ∧ j < s + n := by
  rw [List.mem_range']
  constructor
  · rintro ⟨i, hi, rfl⟩
    omega
  · rintro ⟨h1, h2⟩
    exact ⟨j - s, by omega, by omega⟩

/-- C1.  In a mode other than `TEST_ONLY`, the availability filter includes
a node whose bit is set in the input bitmap exactly when the node passes the
GRES bound, the memory fit (`alloc_memory + job_mem ≤ real_memory`), the
exclusive-use fit (`exclusive_cnt == 0`) and the two sharing-cap sums; and
the returned count is the number of included nodes.  Hypotheses: the job has
details, `cr_type == CR_MEMORY`, the output map is at least as long as the
input map, `alloc_memory + job_mem` does not overflow `uint32_t`, and
`alloc_memory ≤ real_memory` (invariant I2) on every candidate node. -/
theorem C1_job_count_bitmap_characterization
    (w : World) (cr : CRState) (job : Job) (det : JobDetails)
    (bitmap jobmap : List Bool) (run_cap tot_cap : Int) (mode : Nat)
    (hdet : job.details = some det)
    (hmode : mode ≠ SELECT_MODE_TEST_ONLY)
    (hcrt : w.cr_type_memory = true)
    (hlen : bitmap.length ≤ jobmap.length)
    (hof : ∀ i, i < bitmap.length → btest bitmap i = true →
      (cr.nodes.getD i default).alloc_memory + specJobMem w det i < 2 ^ 32)
    (hinv : ∀ i, i < bitmap.length → btest bitmap i = true →
      (cr.nodes.getD i default).alloc_memory ≤ w.real_memory i) :
    (∀ i, btest bitmap i = true →
      (btest (_job_count_bitmap w cr job bitmap jobmap run_cap tot_cap
          mode).1 i = true ↔
        specNodeAvail w cr det run_cap tot_cap i)) ∧
    (_job_count_bitmap w cr job bitmap jobmap run_cap tot_cap mode).2 =
      (List.range bitmap.length).countP
        (fun i => btest bitmap i &&
          decide (specNodeAvail w cr det run_cap tot_cap i)) := by
  have hjd : job.det = det := by unfold Job.det; rw [hdet]; rfl
  cases hf : bffs bitmap with
  | none =>
    have hempty : ∀ j, btest bitmap j = false := by
      intro j
      by_contra hc
      rw [Bool.not_eq_false] at hc
      obtain ⟨f, hf2, _⟩ := bffsAux_le (s := 0) hc
      rw [bffs] at hf
      rw [hf] at hf2
      exact Option.noConfusion hf2
    have hjcb : _job_count_bitmap w cr job bitmap jobmap run_cap tot_cap mode
        = (jobmap, 0) := by
      unfold _job_count_bitmap
      rw [hjd, hf]
    rw [hjcb]
    constructor
    · intro i hi
      rw [hempty i] at hi
      exact Bool.noConfusion hi
    · symm
      rw [List.countP_eq_zero]
      intro j _
      rw [hempty j]
      simp
  | some f =>
    have hbf : btest bitmap f = true := bffs_some_btest hf
    obtain ⟨l, hl', hfl⟩ := lastSet_ge hbf
    have hjcb : _job_count_bitmap w cr job bitmap jobmap run_cap tot_cap mode
        = jcbLoop w cr (jcbMemFlags w det mode).1 (jcbMemFlags w det mode).2
          run_cap tot_cap mode bitmap f (l + 1 - f) jobmap 0 := by
      unfold _job_count_bitmap
      rw [hjd, hf, bfls_eq_lastSet, hl']
    rw [hjcb]
    have hrange : ∀ i, btest bitmap i = true → f ≤ i ∧ i ≤ l := by
      intro i hi
      obtain ⟨f2, hf2, hf2le⟩ := bffsAux_le (s := 0) hi
      rw [bffs] at hf
      rw [hf] at hf2
      obtain ⟨l2, hl2, hl2ge⟩ := lastSet_ge hi
      rw [hl'] at hl2
      have he1 : f = f2 := Option.some.inj hf2
      have he2 : l2 = l := (Option.some.inj hl2).symm
      constructor
      · omega
      · omega
    constructor
    · intro i hi
      have hjlen : i < jobmap.length :=
        Nat.lt_of_lt_of_le (btest_lt_length hi) hlen
      rw [jcbLoop_get w cr _ _ run_cap tot_cap mode bitmap f (l + 1 - f)
        jobmap 0 i hjlen]
      obtain ⟨h1, h2⟩ := hrange i hi
      rw [if_pos ⟨h1, by omega⟩, decide_eq_true_eq]
      exact jcbDecision_iff_specNodeAvail w cr det run_cap tot_cap mode
        bitmap i hmode hcrt hi (hof i (btest_lt_length hi) hi)
        (hinv i (btest_lt_length hi) hi)
    · rw [jcbLoop_count]
      have hllen : l < bitmap.length := lastSet_lt_length hl'
      have hmid : ∀ j ∈ List.range' f (l + 1 - f),
          (decide (jcbDecision w cr (jcbMemFlags w det mode).1
            (jcbMemFlags w det mode).2 run_cap tot_cap mode bitmap j) = true
          ↔ (btest bitmap j &&
            decide (specNodeAvail w cr det run_cap tot_cap j)) = true) := by
        intro j _
        by_cases hb : btest bitmap j = true
        · rw [hb, Bool.true_and, decide_eq_true_eq, decide_eq_true_eq]
          exact jcbDecision_iff_specNodeAvail w cr det run_cap tot_cap mode
            bitmap j hmode hcrt hb (hof j (btest_lt_length hb) hb)
            (hinv j (btest_lt_length hb) hb)
        · rw [Bool.not_eq_true] at hb
          rw [hb, Bool.false_and]
          constructor
          · intro hc
            rw [decide_eq_true_eq] at hc
            rw [hc.1] at hb
            exact Bool.noConfusion hb
          · intro hc
            exact Bool.noConfusion hc
      rw [List.countP_congr hmid]
      have hsplit : List.range bitmap.length =
          List.range' 0 f ++ List.range' f (l + 1 - f) ++
          List.range' (l + 1) (bitmap.length - (l + 1)) := by
        rw [List.range_eq_range']
        rw [show List.range' 0 f ++ List.range' f (l + 1 - f) =
          List.range' 0 (l + 1) by
            have := List.range'_append 0 f (l + 1 - f) 1
            simp only [Nat.one_mul, Nat.zero_add] at this
            rw [this]
            congr 1
            omega]
        have := List.range'_append 0 (l + 1) (bitmap.length - (l + 1)) 1
        simp only [Nat.one_mul, Nat.zero_add] at this
        rw [this]
        congr 1
        omega
      rw [hsplit, List.countP_append, List.countP_append]
      have hleft : (List.range' 0 f).countP
          (fun i => btest bitmap i &&
            decide (specNodeAvail w cr det run_cap tot_cap i)) = 0 := by
        rw [List.countP_eq_zero]
        intro j hj
        rw [mem_range'_iff] at hj
        rw [bffsAux_min (s := 0) (by rw [bffs] at hf; exact hf) (by omega)]
        simp
      have hright : (List.range' (l + 1) (bitmap.length - (l + 1))).countP
          (fun i => btest bitmap i &&
            decide (specNodeAvail w cr det run_cap tot_cap i)) = 0 := by
        rw [List.countP_eq_zero]
        intro j hj
        rw [mem_range'_iff] at hj
        rw [lastSet_max hl' (by omega)]
        simp
      rw [hleft, hright]
      omega

theorem C1_witness :
    (∀ i, btest [true, true] i = true →
      (btest (_job_count_bitmap c1World c1CR c1Job [true, true]
          [true, true] 1 NO_SHARE_LIMIT SELECT_MODE_RUN_NOW).1 i = true ↔
        specNodeAvail c1World c1CR c1Details 1 NO_SHARE_LIMIT i)) ∧
    (_job_count_bitmap c1World c1CR c1Job [true, true] [true, true] 1
        NO_SHARE_LIMIT SELECT_MODE_RUN_NOW).2 =
      (List.range (List.length [true, true])).countP
        (fun i => btest [true, true] i &&
          decide (specNodeAvail c1World c1CR c1Details 1 NO_SHARE_LIMIT
            i)) :=
  C1_job_count_bitmap_characterization c1World c1CR c1Job c1Details
    [true, true] [true, true] 1 NO_SHARE_LIMIT SELECT_MODE_RUN_NOW rfl
    (by decide) rfl (by decide) (by decide) (by decide)

/-- C7.  `_enough_nodes(avail, rem, min, req)` is exactly
`avail ≥ (req > min ? rem + min − req : rem)`; in particular at
`avail = rem = 0` it holds iff `min − req ≤ 0` when `req > min`, and holds
unconditionally when `req ≤ min`. -/
theorem C7_enough_nodes (avail_nodes rem_nodes : Int)
    (min_nodes req_nodes : Nat) :
    (_enough_nodes avail_nodes rem_nodes min_nodes req_nodes = true ↔
      avail_nodes ≥ (if req_nodes > min_nodes then
        rem_nodes + min_nodes - req_nodes else rem_nodes)) ∧
    (_enough_nodes 0 0 min_nodes req_nodes = true ↔
      (req_nodes > min_nodes → (min_nodes : Int) - req_nodes ≤ 0)) ∧
    (req_nodes ≤ min_nodes → _enough_nodes 0 0 min_nodes req_nodes = true) := by
  unfold _enough_nodes
  refine ⟨?_, ?_, ?_⟩
  · by_cases h : req_nodes > min_nodes
    · rw [if_pos h]
      simp
    · rw [if_neg h]
      simp
  · by_cases h : req_nodes > min_nodes
    · rw [if_pos h]
      simp only [decide_eq_true_eq]
      constructor
      · intro h2 _
        omega
      · intro h2
        have := h2 h
        omega
    · rw [if_neg h]
      simp only [decide_eq_true_eq]
      constructor
      · intro _ hc
        omega
      · intro _
        omega
  · intro h
    rw [if_neg (by omega)]
    simp

theorem C7_enough_nodes_witness :
    (_enough_nodes 5 2 3 4 = true ↔
      (5 : Int) ≥ (if 4 > 3 then (2 : Int) + 3 - 4 else 2)) ∧
    (_enough_nodes 0 0 3 4 = true ↔ (4 > 3 → (3 : Int) - 4 ≤ 0)) ∧
    (4 ≤ 3 → _enough_nodes 0 0 3 4 = true) :=
  C7_enough_nodes 5 2 3 4

/-- C9.  Packing a per-node `select_nodeinfo` and unpacking the resulting
buffer yields a nodeinfo with the same `alloc_cpus` and the magic field
initialized to `0x82ad`; the wire image is exactly one 16-bit word. -/
theorem C9_nodeinfo_pack_unpack (nodeinfo : SelectNodeinfo)
    (h : nodeinfo.alloc_cpus < 65536) :
    select_p_select_nodeinfo_unpack
        (select_p_select_nodeinfo_pack nodeinfo []) =
      some ({ magic := NODEINFO_MAGIC, alloc_cpus := nodeinfo.alloc_cpus },
        []) ∧
    select_p_select_nodeinfo_pack nodeinfo [] = [nodeinfo.alloc_cpus] := by
  unfold select_p_select_nodeinfo_unpack select_p_select_nodeinfo_pack
    select_p_select_nodeinfo_alloc pack16 safe_unpack16 u16
  rw [Nat.mod_eq_of_lt h]
  exact ⟨rfl, rfl⟩

/-- C2 counterexample.  On the S2 scenario the flat selector does NOT return
the bitmap {4,5,6}: the commit loop first scans upward from the required
node 5 and reaches the run end before any downward step, because the demand
is already met.  The claim's expected output is refuted. -/
theorem C2_counterexample :
    (_job_test c2World c2Job (List.replicate 8 true) 3 3 3).rc =
      SLURM_SUCCESS ∧
    (_job_test c2World c2Job (List.replicate 8 true) 3 3 3).bitmap ≠
      [false, false, false, false, true, true, true, false] := by
  constructor
  · rfl
  · intro h
    exact absurd h (by decide)

/-- C2 amended.  With a required node at index `r` the commit loop sets bits
from `r` scanning upward to the run end and only then from `r − 1` downward
(stopping as soon as the demand is met); on the S2 cluster this yields the
bitmap {5,6,7} (not {4,5,6}), with `total_cpus = 12`. -/
theorem C2_flat_selector_required_node :
    (_job_test c2World c2Job (List.replicate 8 true) 3 3 3).rc =
      SLURM_SUCCESS ∧
    (_job_test c2World c2Job (List.replicate 8 true) 3 3 3).bitmap =
      [false, false, false, false, false, true, true, true] ∧
    (_job_test c2World c2Job
      (List.replicate 8 true) 3 3 3).job.total_cpus = 12 := by
  refine ⟨rfl, by decide, rfl⟩

theorem getD_set {α : Type} (l : List α) (k j : Nat) (a d : α) :
    (l.set k a).getD j d = if k = j ∧ k < l.length then a else l.getD j d := by
  rw [List.getD_eq_getElem?_getD, List.getD_eq_getElem?_getD,
    List.getElem?_set]
  by_cases hkj : k = j
  · subst hkj
    by_cases hk : k < l.length
    · simp [hk]
    · simp [hk, List.getElem?_eq_none (Nat.le_of_not_lt hk)]
  · simp [hkj]

theorem contains_eq_true_iff {l : List Nat} {x : Nat} :
    l.contains x = true ↔ x ∈ l := by
  simp

/-! ### Loop characterizations of the allocator node scans -/

theorem addNodeStep_length (w : World) (job : Job) (jmc jmn : Nat)
    (aa ex : Bool) (bm : List Bool) (i : Nat) (nodes : List NodeCRRecord)
    (rc : Int) :
    (addNodeStep w job jmc jmn aa ex bm i nodes rc).1.length =
      nodes.length := by
  unfold addNodeStep
  split
  · rfl
  · split
    · rfl
    · show (nodes.set i _).length = nodes.length
      rw [List.length_set]

theorem addNodeStep_get (w : World) (job : Job) (jmc jmn : Nat)
    (aa ex : Bool) (bm : List Bool) (i : Nat) (nodes : List NodeCRRecord)
    (rc : Int) (j : Nat) :
    (addNodeStep w job jmc jmn aa ex bm i nodes rc).1.getD j default =
      if btest bm i = true ∧ btest job.node_bitmap i = true ∧ i = j ∧
          i < nodes.length then
        addNodeUpd w job jmc jmn aa ex i (nodes.getD i default)
      else nodes.getD j default := by
  unfold addNodeStep
  by_cases hb1 : btest bm i = false
  · rw [if_pos hb1, if_neg (by
      rintro ⟨h1, _, _, _⟩
      rw [hb1] at h1
      exact Bool.noConfusion h1)]
  · rw [if_neg hb1]
    rw [Bool.not_eq_false] at hb1
    by_cases hb2 : btest job.node_bitmap i = false
    · rw [if_pos hb2, if_neg (by
        rintro ⟨_, h2, _, _⟩
        rw [hb2] at h2
        exact Bool.noConfusion h2)]
    · rw [if_neg hb2]
      rw [Bool.not_eq_false] at hb2
      show (nodes.set i _).getD j default = _
      rw [getD_set]
      by_cases hij : i = j ∧ i < nodes.length
      · rw [if_pos hij, if_pos ⟨hb1, hb2, hij.1, hij.2⟩]
      · rw [if_neg hij, if_neg (fun hc => hij ⟨hc.2.2.1, hc.2.2.2⟩)]

theorem addNodesLoop_length (w : World) (job : Job) (jmc jmn : Nat)
    (aa ex : Bool) (bm : List Bool) (i fuel : Nat)
    (nodes : List NodeCRRecord) (rc : Int) :
    (addNodesLoop w job jmc jmn aa ex bm i fuel nodes rc).1.length =
      nodes.length := by
  induction fuel generalizing i nodes rc with
  | zero => rfl
  | succ fuel ih =>
    show (addNodesLoop w job jmc jmn aa ex bm (i + 1) fuel _ _).1.length = _
    rw [ih, addNodeStep_length]

theorem addNodesLoop_get (w : World) (job : Job) (jmc jmn : Nat)
    (aa ex : Bool) (bm : List Bool) (i fuel : Nat)
    (nodes : List NodeCRRecord) (rc : Int) (j : Nat)
    (hj : j < nodes.length) :
    (addNodesLoop w job jmc jmn aa ex bm i fuel nodes rc).1.getD j default =
      if i ≤ j ∧ j < i + fuel ∧ btest bm j = true ∧
          btest job.node_bitmap j = true then
        addNodeUpd w job jmc jmn aa ex j (nodes.getD j default)
      else nodes.getD j default := by
  induction fuel generalizing i nodes rc with
  | zero =>
    rw [if_neg (by omega)]
    rfl
  | succ fuel ih =>
    show (addNodesLoop w job jmc jmn aa ex bm (i + 1) fuel
      (addNodeStep w job jmc jmn aa ex bm i nodes rc).1
      (addNodeStep w job jmc jmn aa ex bm i nodes rc).2).1.getD j default = _
    rw [ih _ _ _ (by rw [addNodeStep_length]; exact hj), addNodeStep_get]
    by_cases hr : i + 1 ≤ j ∧ j < i + 1 + fuel ∧ btest bm j = true ∧
        btest job.node_bitmap j = true
    · have hij : ¬(btest bm i = true ∧ btest job.node_bitmap i = true ∧
          i = j ∧ i < nodes.length) := by
        rintro ⟨_, _, rfl, _⟩
        omega
      rw [if_pos hr, if_neg hij, if_pos ⟨by omega, by omega, hr.2.2⟩]
    · rw [if_neg hr]
      by_cases hc2 : i ≤ j ∧ j < i + (fuel + 1) ∧ btest bm j = true ∧
          btest job.node_bitmap j = true
      · have hij : i = j := by
          rcases hc2 with ⟨h1, h2, h3, h4⟩
          by_contra hne
          exact hr ⟨by omega, by omega, h3, h4⟩
        subst hij
        rw [if_pos ⟨hc2.2.2.1, hc2.2.2.2, rfl, hj⟩, if_pos hc2]
      · rw [if_neg hc2]
        by_cases hstep : btest bm i = true ∧ btest job.node_bitmap i = true ∧
            i = j ∧ i < nodes.length
        · rcases hstep with ⟨h1, h2, rfl, _⟩
          exact absurd ⟨Nat.le_refl i, by omega, h1, h2⟩ hc2
        · rw [if_neg hstep]

theorem rmNodeStep_length (w : World) (job : Job) (jmc jmn : Nat)
    (ra ex ir : Bool) (bm : List Bool) (i : Nat)
    (nodes : List NodeCRRecord) (rc : Int) :
    (rmNodeStep w job jmc jmn ra ex ir bm i nodes rc).1.length =
      nodes.length := by
  unfold rmNodeStep
  split
  · rfl
  · split
    · rfl
    · show (nodes.set i _).length = nodes.length
      rw [List.length_set]

theorem rmNodeStep_get (w : World) (job : Job) (jmc jmn : Nat)
    (ra ex ir : Bool) (bm : List Bool) (i : Nat) (nodes : List NodeCRRecord)
    (rc : Int) (j : Nat) :
    (rmNodeStep w job jmc jmn ra ex ir bm i nodes rc).1.getD j default =
      if btest bm i = true ∧ btest job.node_bitmap i = true ∧ i = j ∧
          i < nodes.length then
        rmNodeUpd w job jmc jmn ra ex ir i (nodes.getD i default)
      else nodes.getD j default := by
  unfold rmNodeStep
  by_cases hb1 : btest bm i = false
  · rw [if_pos hb1, if_neg (by
      rintro ⟨h1, _, _, _⟩
      rw [hb1] at h1
      exact Bool.noConfusion h1)]
  · rw [if_neg hb1]
    rw [Bool.not_eq_false] at hb1
    by_cases hb2 : btest job.node_bitmap i = false
    · rw [if_pos hb2, if_neg (by
        rintro ⟨_, h2, _, _⟩
        rw [hb2] at h2
        exact Bool.noConfusion h2)]
    · rw [if_neg hb2]
      rw [Bool.not_eq_false] at hb2
      show (nodes.set i _).getD j default = _
      rw [getD_set]
      by_cases hij : i = j ∧ i < nodes.length
      · rw [if_pos hij, if_pos ⟨hb1, hb2, hij.1, hij.2⟩]
      · rw [if_neg hij, if_neg (fun hc => hij ⟨hc.2.2.1, hc.2.2.2⟩)]

theorem rmNodesLoop_length (w : World) (job : Job) (jmc jmn : Nat)
    (ra ex ir : Bool) (bm : List Bool) (i fuel : Nat)
    (nodes : List NodeCRRecord) (rc : Int) :
    (rmNodesLoop w job jmc jmn ra ex ir bm i fuel nodes rc).1.length =
      nodes.length := by
  induction fuel generalizing i nodes rc with
  | zero => rfl
  | succ fuel ih =>
    show (rmNodesLoop w job jmc jmn ra ex ir bm (i + 1) fuel _ _).1.length = _
    rw [ih, rmNodeStep_length]

theorem rmNodesLoop_get (w : World) (job : Job) (jmc jmn : Nat)
    (ra ex ir : Bool) (bm : List Bool) (i fuel : Nat)
    (nodes : List NodeCRRecord) (rc : Int) (j : Nat)
    (hj : j < nodes.length) :
    (rmNodesLoop w job jmc jmn ra ex ir bm i fuel nodes rc).1.getD j
        default =
      if i ≤ j ∧ j < i + fuel ∧ btest bm j = true ∧
          btest job.node_bitmap j = true then
        rmNodeUpd w job jmc jmn ra ex ir j (nodes.getD j default)
      else nodes.getD j default := by
  induction fuel generalizing i nodes rc with
  | zero =>
    rw [if_neg (by omega)]
    rfl
  | succ fuel ih =>
    show (rmNodesLoop w job jmc jmn ra ex ir bm (i + 1) fuel
      (rmNodeStep w job jmc jmn ra ex ir bm i nodes rc).1
      (rmNodeStep w job jmc jmn ra ex ir bm i nodes rc).2).1.getD j
        default = _
    rw [ih _ _ _ (by rw [rmNodeStep_length]; exact hj), rmNodeStep_get]
    by_cases hr : i + 1 ≤ j ∧ j < i + 1 + fuel ∧ btest bm j = true ∧
        btest job.node_bitmap j = true
    · have hij : ¬(btest bm i = true ∧ btest job.node_bitmap i = true ∧
          i = j ∧ i < nodes.length) := by
        rintro ⟨_, _, rfl, _⟩
        omega
      rw [if_pos hr, if_neg hij, if_pos ⟨by omega, by omega, hr.2.2⟩]
    · rw [if_neg hr]
      by_cases hc2 : i ≤ j ∧ j < i + (fuel + 1) ∧ btest bm j = true ∧
          btest job.node_bitmap j = true
      · have hij : i = j := by
          rcases hc2 with ⟨h1, h2, h3, h4⟩
          by_contra hne
          exact hr ⟨by omega, by omega, h3, h4⟩
        subst hij
        rw [if_pos ⟨hc2.2.2.1, hc2.2.2.2, rfl, hj⟩, if_pos hc2]
      · rw [if_neg hc2]
        by_cases hstep : btest bm i = true ∧ btest job.node_bitmap i = true ∧
            i = j ∧ i < nodes.length
        · rcases hstep with ⟨h1, h2, rfl, _⟩
          exact absurd ⟨Nat.le_refl i, by omega, h1, h2⟩ hc2
        · rw [if_neg hstep]

theorem rmPartsDec_addPartsInc (part_id : Nat) (parts : List PartCRRecord)
    (h : ∀ pc ∈ parts, PartCRWf pc) :
    (rmPartsDec true true part_id (addPartsInc true part_id parts).1).1 =
      parts := by
  induction parts with
  | nil => rfl
  | cons pc rest ih =>
    by_cases hpc : pc.part_id ≠ part_id
    · have hinc : (addPartsInc true part_id (pc :: rest)).1 =
          pc :: (addPartsInc true part_id rest).1 := by
        conv_lhs => unfold addPartsInc
        rw [if_pos hpc]
      rw [hinc]
      have hdec : (rmPartsDec true true part_id
          (pc :: (addPartsInc true part_id rest).1)).1 =
          pc :: (rmPartsDec true true part_id
            (addPartsInc true part_id rest).1).1 := by
        conv_lhs => unfold rmPartsDec
        rw [if_pos hpc]
      rw [hdec, ih (fun pc2 hm => h pc2 (List.mem_cons_of_mem _ hm))]
    · rw [Decidable.not_not] at hpc
      obtain ⟨hrun, htot, hsync⟩ := h pc (List.mem_cons_self _ _)
      obtain ⟨pid, prun, ptot⟩ := pc
      simp only [PartCRWf] at hrun htot hsync
      have hinc : (addPartsInc true part_id
          (⟨pid, prun, ptot⟩ :: rest)).1 =
          ⟨pid, u16 (prun + 1), u16 (ptot + 1)⟩ :: rest := by
        unfold addPartsInc
        rw [if_neg (fun hc => hc hpc)]
        simp
      rw [hinc]
      have hu1 : u16 (prun + 1) = prun + 1 := Nat.mod_eq_of_lt hrun
      have hu2 : u16 (ptot + 1) = ptot + 1 := Nat.mod_eq_of_lt htot
      rw [hu1, hu2]
      unfold rmPartsDec
      rw [if_neg (fun hc => hc hpc)]
      by_cases hpt : ptot = 0
      · have hpr := hsync hpt
        subst hpt hpr
        simp
      · simp [hpt]

theorem rmNodeUpd_addNodeUpd (w : World) (job : Job) (jmc jmn : Nat)
    (ex : Bool) (i : Nat) (nd : NodeCRRecord)
    (hof : nd.alloc_memory +
      (if jmc ≠ 0 then jmc * w.node_cpus i else jmn) < 2 ^ 32)
    (hexcl : nd.exclusive_cnt + 1 < 65536)
    (hparts : ∀ pc ∈ nd.parts, PartCRWf pc) :
    rmNodeUpd w job jmc jmn true ex true i
      (addNodeUpd w job jmc jmn true ex i nd) = nd := by
  obtain ⟨a, e, ps⟩ := nd
  have hjm32 : (if jmc ≠ 0 then jmc * w.node_cpus i else jmn) < 2 ^ 32 := by
    omega
  unfold addNodeUpd
  simp only []
  by_cases hjmc : jmc ≠ 0
  · rw [if_pos hjmc]
    rw [if_pos hjmc] at hof hjm32
    have h1 : u32 (jmc * w.node_cpus i) = jmc * w.node_cpus i :=
      Nat.mod_eq_of_lt hjm32
    rw [h1]
    have h2 : u32 (a + jmc * w.node_cpus i) = a + jmc * w.node_cpus i :=
      Nat.mod_eq_of_lt hof
    rw [h2]
    by_cases hex : ex = true
    · subst hex
      rw [if_pos rfl]
      have h3 : u16 (e + 1) = e + 1 := Nat.mod_eq_of_lt hexcl
      rw [h3]
      unfold rmNodeUpd
      simp only []
      rw [if_pos hjmc, h1,
        if_pos (show a + jmc * w.node_cpus i ≥ jmc * w.node_cpus i by omega),
        rmPartsDec_addPartsInc _ _ hparts]
      simp
    · rw [if_neg hex]
      unfold rmNodeUpd
      simp only []
      rw [if_pos hjmc, h1,
        if_pos (show a + jmc * w.node_cpus i ≥ jmc * w.node_cpus i by omega),
        if_neg hex]
      simp only [Nat.add_sub_cancel]
      rw [rmPartsDec_addPartsInc _ _ hparts]
  · rw [if_neg hjmc]
    rw [if_neg hjmc] at hof
    have h2 : u32 (a + jmn) = a + jmn := Nat.mod_eq_of_lt hof
    rw [h2]
    by_cases hex : ex = true
    · subst hex
      rw [if_pos rfl]
      have h3 : u16 (e + 1) = e + 1 := Nat.mod_eq_of_lt hexcl
      rw [h3]
      unfold rmNodeUpd
      simp only []
      rw [if_neg hjmc, if_pos (show a + jmn ≥ jmn by omega),
        rmPartsDec_addPartsInc _ _ hparts]
      simp
    · rw [if_neg hex]
      unfold rmNodeUpd
      simp only []
      rw [if_neg hjmc, if_pos (show a + jmn ≥ jmn by omega), if_neg hex]
      simp only [Nat.add_sub_cancel]
      rw [rmPartsDec_addPartsInc _ _ hparts]

theorem list_ext_getD {α : Type} [Inhabited α] {l1 l2 : List α}
    (hlen : l1.length = l2.length)
    (h : ∀ j, j < l1.length → l1.getD j default = l2.getD j default) :
    l1 = l2 := by
  apply List.ext_getElem hlen
  intro i h1 h2
  have := h i h1
  rw [List.getD_eq_getElem?_getD, List.getD_eq_getElem?_getD,
    List.getElem?_eq_getElem h1, List.getElem?_eq_getElem h2] at this
  simpa using this

/-- One `commit_alloc(mode_all = true)` followed by the matching
`release_alloc(mode_remove_all = true)` restores the registry: same node
records, and the same nonzero content of both job-id arrays. -/
theorem commit_release_pair (w : World) (cr : CRState) (job : Job)
    (hid : job.job_id ≠ 0)
    (hrun : job.job_id ∉ cr.run_job_ids)
    (htot : job.job_id ∉ cr.tot_job_ids)
    (hof : ∀ i, i < cr.nodes.length →
      (cr.nodes.getD i default).alloc_memory +
        (if (allocMemFlags w job true).1 ≠ 0 then
          (allocMemFlags w job true).1 * w.node_cpus i
        else (allocMemFlags w job true).2) < 2 ^ 32)
    (hexcl : ∀ i, i < cr.nodes.length →
      (cr.nodes.getD i default).exclusive_cnt + 1 < 65536)
    (hparts : ∀ i, i < cr.nodes.length →
      ∀ pc ∈ (cr.nodes.getD i default).parts, PartCRWf pc) :
    ((_rm_job_from_nodes w (_add_job_to_nodes w cr job true).2 job
        true).2.nodes = cr.nodes) ∧
    ((_rm_job_from_nodes w (_add_job_to_nodes w cr job true).2 job
        true).2.run_job_ids.filter (fun x => x != 0) =
      cr.run_job_ids.filter (fun x => x != 0)) ∧
    ((_rm_job_from_nodes w (_add_job_to_nodes w cr job true).2 job
        true).2.tot_job_ids.filter (fun x => x != 0) =
      cr.tot_job_ids.filter (fun x => x != 0)) := by
  cases hres : job.job_resrcs with
  | none =>
    have hadd : (_add_job_to_nodes w cr job true) = (SLURM_ERROR, cr) := by
      unfold _add_job_to_nodes
      rw [hres]
    have hnc : hasJobId cr.tot_job_ids job.job_id = false := by
      rw [← Bool.not_eq_true, hasJobId]
      intro hc
      exact htot (contains_eq_true_iff.mp hc)
    have hrm : (_rm_job_from_nodes w cr job true) = (SLURM_ERROR, cr) := by
      unfold _rm_job_from_nodes
      rw [if_pos hnc]
    rw [hadd]
    show ((_rm_job_from_nodes w cr job true).2.nodes = cr.nodes) ∧ _
    rw [hrm]
    exact ⟨rfl, rfl, rfl⟩
  | some resrcs =>
    have hs1 : (_add_job_to_nodes w cr job true).2 =
        ⟨(addNodesLoop w job (allocMemFlags w job true).1
            (allocMemFlags w job true).2 true
            (decide (job.det.shared = 0)) resrcs.node_bitmap 0
            cr.nodes.length cr.nodes SLURM_SUCCESS).1,
          addJobId cr.run_job_ids job.job_id,
          addJobId cr.tot_job_ids job.job_id⟩ := by
      unfold _add_job_to_nodes
      rw [hres]
      rfl
    have hmem2 : job.job_id ∈ addJobId cr.tot_job_ids job.job_id :=
      mem_addJobId _ _
    have hmem3 : job.job_id ∈ addJobId cr.run_job_ids job.job_id :=
      mem_addJobId _ _
    have hc2 : hasJobId (addJobId cr.tot_job_ids job.job_id) job.job_id =
        true := by
      rw [hasJobId]
      exact contains_eq_true_iff.mpr hmem2
    have hc3 : hasJobId (addJobId cr.run_job_ids job.job_id) job.job_id =
        true := by
      rw [hasJobId]
      exact contains_eq_true_iff.mpr hmem3
    rw [hs1]
    have hrm : (_rm_job_from_nodes w
        (⟨(addNodesLoop w job (allocMemFlags w job true).1
            (allocMemFlags w job true).2 true
            (decide (job.det.shared = 0)) resrcs.node_bitmap 0
            cr.nodes.length cr.nodes SLURM_SUCCESS).1,
          addJobId cr.run_job_ids job.job_id,
          addJobId cr.tot_job_ids job.job_id⟩ : CRState) job true).2 =
        ⟨(rmNodesLoop w job (allocMemFlags w job true).1
            (allocMemFlags w job true).2 true
            (decide (job.det.shared = 0)) true resrcs.node_bitmap 0
            (addNodesLoop w job (allocMemFlags w job true).1
              (allocMemFlags w job true).2 true
              (decide (job.det.shared = 0)) resrcs.node_bitmap 0
              cr.nodes.length cr.nodes SLURM_SUCCESS).1.length
            (addNodesLoop w job (allocMemFlags w job true).1
              (allocMemFlags w job true).2 true
              (decide (job.det.shared = 0)) resrcs.node_bitmap 0
              cr.nodes.length cr.nodes SLURM_SUCCESS).1 SLURM_SUCCESS).1,
          remJobId (addJobId cr.run_job_ids job.job_id) job.job_id,
          remJobId (addJobId cr.tot_job_ids job.job_id) job.job_id⟩ := by
      unfold _rm_job_from_nodes
      rw [hres]
      rw [if_neg (show ¬(hasJobId (addJobId cr.tot_job_ids job.job_id)
          job.job_id = false) by
        rw [hc2]
        exact fun hc => Bool.noConfusion hc)]
      dsimp only
      rw [hc3]
    rw [hrm]
    refine ⟨?_, ?_, ?_⟩
    · have hlen1 : (addNodesLoop w job (allocMemFlags w job true).1
          (allocMemFlags w job true).2 true
          (decide (job.det.shared = 0)) resrcs.node_bitmap 0
          cr.nodes.length cr.nodes SLURM_SUCCESS).1.length =
          cr.nodes.length := addNodesLoop_length _ _ _ _ _ _ _ _ _ _ _
      apply list_ext_getD
      · rw [rmNodesLoop_length, hlen1]
      · intro j hj
        rw [rmNodesLoop_length, hlen1] at hj
        rw [rmNodesLoop_get _ _ _ _ _ _ _ _ _ _ _ _ _
            (by rw [hlen1]; exact hj),
          addNodesLoop_get _ _ _ _ _ _ _ _ _ _ _ _ hj, hlen1]
        by_cases hg : 0 ≤ j ∧ j < 0 + cr.nodes.length ∧
            btest resrcs.node_bitmap j = true ∧
            btest job.node_bitmap j = true
        · rw [if_pos hg, if_pos hg]
          exact rmNodeUpd_addNodeUpd w job _ _ _ j _ (hof j hj)
            (hexcl j hj) (hparts j hj)
        · rw [if_neg hg, if_neg hg]
    · exact remJobId_addJobId_filter hid hrun
    · exact remJobId_addJobId_filter hid htot

theorem C3JobOk_of_CREq {w : World} {s cr : CRState} {job : Job}
    (heq : CREq s cr) (h : C3JobOk w cr job) : C3JobOk w s job := by
  obtain ⟨h1, h2, h3⟩ := heq
  obtain ⟨k1, k2, k3, k4, k5, k6⟩ := h
  have hmem : ∀ l1 l2 : List Nat,
      l1.filter (fun x => x != 0) = l2.filter (fun x => x != 0) →
      job.job_id ∉ l2 → job.job_id ∉ l1 := by
    intro l1 l2 hf hn hmem1
    have : job.job_id ∈ l1.filter (fun x => x != 0) :=
      List.mem_filter.mpr ⟨hmem1, by simpa using k1⟩
    rw [hf] at this
    exact hn (List.mem_filter.mp this).1
  exact ⟨k1, hmem _ _ h2 k2, hmem _ _ h3 k3,
    by rw [h1]; exact k4, by rw [h1]; exact k5, by rw [h1]; exact k6⟩

theorem CREq_trans {a b c : CRState} (h1 : CREq a b) (h2 : CREq b c) :
    CREq a c :=
  ⟨h1.1.trans h2.1, h1.2.1.trans h2.2.1, h1.2.2.trans h2.2.2⟩

/-- C3 amended.  Any balanced sequence of `commit_alloc`/`release_alloc`
pairs with `mode_all = mode_remove_all = true` returns the registry to its
initial value (node counters exactly, job-id sets up to zero padding),
provided each job has a nonzero id not already registered and the start
state satisfies the no-overflow and I1 well-formedness conditions.  With
`mode_all = mode_remove_all = false` the claim fails (see the
counterexample): the release variant never decrements `tot_job_cnt`. -/
theorem C3_commit_release_balanced (w : World) (cr : CRState)
    (jobs : List Job) (h : ∀ job ∈ jobs, C3JobOk w cr job) :
    CREq (jobs.foldl (commitRelease w) cr) cr := by
  induction jobs generalizing cr with
  | nil => exact ⟨rfl, rfl, rfl⟩
  | cons job rest ih =>
    obtain ⟨k1, k2, k3, k4, k5, k6⟩ := h job (List.mem_cons_self _ _)
    have hpair := commit_release_pair w cr job k1 k2 k3 k4 k5 k6
    have heq1 : CREq (commitRelease w cr job) cr := hpair
    have hrest : ∀ job2 ∈ rest, C3JobOk w (commitRelease w cr job) job2 :=
      fun job2 hm =>
        C3JobOk_of_CREq heq1 (h job2 (List.mem_cons_of_mem _ hm))
    exact CREq_trans (ih (commitRelease w cr job) hrest) heq1

/-- C3 counterexample.  A `commit_alloc(mode_all = false)` followed by the
matching `release_alloc(mode_remove_all = false)` (the suspend/resume
variant) does NOT return the registry to its initial value: the commit
increments the PartCR `tot_job_cnt`, but the matching release only
decrements it when `mode_remove_all` is set, so the counter stays
inflated. -/
theorem C3_counterexample :
    (_rm_job_from_nodes c3World
        (_add_job_to_nodes c3World c3CR c3Job false).2 c3Job false).2 ≠
      c3CR ∧
    ((_rm_job_from_nodes c3World
        (_add_job_to_nodes c3World c3CR c3Job false).2 c3Job
        false).2.nodes.getD 0 default).parts = [⟨1, 0, 1⟩] ∧
    (c3CR.nodes.getD 0 default).parts = [⟨1, 0, 0⟩] := by
  refine ⟨by decide, by decide, rfl⟩

theorem C3_commit_release_balanced_witness :
    (∀ job ∈ [c3Job], C3JobOk c3World c3CR job) ∧
    CREq ([c3Job].foldl (commitRelease c3World) c3CR) c3CR :=
  ⟨by decide, C3_commit_release_balanced c3World c3CR [c3Job] (by decide)⟩

/-- C10.  Calling `_rm_job_from_nodes` for a job whose id is in the total
set but whose `job_resrcs` pointer is null returns `SLURM_ERROR` after the
id has already been removed from the total set; the run set and every
per-node counter are untouched, so the failing call is observably not
atomic. -/
theorem C10_release_null_resources (w : World) (cr : CRState) (job : Job)
    (remove_all : Bool)
    (hid : job.job_id ≠ 0)
    (hmem : job.job_id ∈ cr.tot_job_ids)
    (hres : job.job_resrcs = none) :
    (_rm_job_from_nodes w cr job remove_all).1 = SLURM_ERROR ∧
    (_rm_job_from_nodes w cr job remove_all).2.nodes = cr.nodes ∧
    (_rm_job_from_nodes w cr job remove_all).2.run_job_ids =
      cr.run_job_ids ∧
    job.job_id ∉ (_rm_job_from_nodes w cr job remove_all).2.tot_job_ids ∧
    (_rm_job_from_nodes w cr job remove_all).2 ≠ cr := by
  have hc : hasJobId cr.tot_job_ids job.job_id = true := by
    rw [hasJobId]
    exact contains_eq_true_iff.mpr hmem
  have hrm : (_rm_job_from_nodes w cr job remove_all) =
      (SLURM_ERROR,
        ⟨cr.nodes, cr.run_job_ids,
          remJobId cr.tot_job_ids job.job_id⟩) := by
    unfold _rm_job_from_nodes
    rw [if_neg (show ¬(hasJobId cr.tot_job_ids job.job_id = false) by
      rw [hc]
      exact fun h2 => Bool.noConfusion h2)]
    rw [hres]
  rw [hrm]
  refine ⟨rfl, rfl, rfl, ?_, ?_⟩
  · intro hmem2
    have := remJobId_not_mem hid hmem2
    exact this.2 rfl
  · intro heq
    have htot : remJobId cr.tot_job_ids job.job_id = cr.tot_job_ids :=
      congrArg CRState.tot_job_ids heq
    have : job.job_id ∈ remJobId cr.tot_job_ids job.job_id := by
      rw [htot]
      exact hmem
    exact (remJobId_not_mem hid this).2 rfl

theorem C10_release_null_resources_witness :
    (_rm_job_from_nodes c3World
        ⟨c3CR.nodes, [], [7]⟩ { c3Job with job_resrcs := none } false).1 =
      SLURM_ERROR ∧
    (_rm_job_from_nodes c3World
        ⟨c3CR.nodes, [], [7]⟩ { c3Job with job_resrcs := none }
        false).2.nodes = (⟨c3CR.nodes, [], [7]⟩ : CRState).nodes ∧
    (_rm_job_from_nodes c3World
        ⟨c3CR.nodes, [], [7]⟩ { c3Job with job_resrcs := none }
        false).2.run_job_ids = (⟨c3CR.nodes, [], [7]⟩ : CRState).run_job_ids ∧
    (7 : Nat) ∉ (_rm_job_from_nodes c3World
        ⟨c3CR.nodes, [], [7]⟩ { c3Job with job_resrcs := none }
        false).2.tot_job_ids ∧
    (_rm_job_from_nodes c3World
        ⟨c3CR.nodes, [], [7]⟩ { c3Job with job_resrcs := none } false).2 ≠
      (⟨c3CR.nodes, [], [7]⟩ : CRState) :=
  C10_release_null_resources c3World ⟨c3CR.nodes, [], [7]⟩
    { c3Job with job_resrcs := none } false (by decide) (by decide) rfl

theorem runSubsetTot_add (w : World) (s : CRState) (job : Job)
    (aa : Bool) (h : runSubsetTot s) :
    runSubsetTot (_add_job_to_nodes w s job aa).2 := by
  cases hres : job.job_resrcs with
  | none =>
    have : (_add_job_to_nodes w s job aa) = (SLURM_ERROR, s) := by
      unfold _add_job_to_nodes
      rw [hres]
    rw [this]
    exact h
  | some resrcs =>
    have heq : (_add_job_to_nodes w s job aa).2.run_job_ids =
        (if aa then addJobId s.run_job_ids job.job_id
          else s.run_job_ids) ∧
        (_add_job_to_nodes w s job aa).2.tot_job_ids =
        addJobId s.tot_job_ids job.job_id := by
      unfold _add_job_to_nodes
      rw [hres]
      cases aa <;> exact ⟨rfl, rfl⟩
    intro id hne hmem
    rw [heq.1] at hmem
    rw [heq.2]
    cases haa : aa with
    | false =>
      rw [haa] at hmem
      rw [if_neg (fun hc => Bool.noConfusion hc)] at hmem
      exact mem_addJobId_of_mem hne (h id hne hmem)
    | true =>
      rw [haa, if_pos rfl] at hmem
      rcases addJobId_mem hmem with hx | hx | hx
      · rw [hx]
        exact mem_addJobId _ _
      · exact mem_addJobId_of_mem hne (h id hne hx)
      · exact absurd hx hne

theorem runSubsetTot_rm (w : World) (s : CRState) (job : Job)
    (ra : Bool) (hres : job.job_resrcs.isSome = true)
    (h : runSubsetTot s) :
    runSubsetTot (_rm_job_from_nodes w s job ra).2 := by
  obtain ⟨resrcs, hres2⟩ := Option.isSome_iff_exists.mp hres
  by_cases hc : hasJobId s.tot_job_ids job.job_id = false
  · have : (_rm_job_from_nodes w s job ra) = (SLURM_ERROR, s) := by
      unfold _rm_job_from_nodes
      rw [if_pos hc]
    rw [this]
    exact h
  · have heq : (_rm_job_from_nodes w s job ra).2.run_job_ids =
        remJobId s.run_job_ids job.job_id ∧
        (_rm_job_from_nodes w s job ra).2.tot_job_ids =
        remJobId s.tot_job_ids job.job_id := by
      unfold _rm_job_from_nodes
      rw [if_neg hc, hres2]
      exact ⟨rfl, rfl⟩
    intro id hne hmem
    rw [heq.1] at hmem
    rw [heq.2]
    obtain ⟨hmem2, hneid⟩ := remJobId_not_mem hne hmem
    exact remJobId_mem hneid (h id hne hmem2)

theorem runSubsetTot_initJobStep (w : World) (s : CRState) (job : Job)
    (h : runSubsetTot s) : runSubsetTot (initJobStep w s job) := by
  by_cases h1 : job.isRunning = false ∧ job.isSuspended = false
  · have he : initJobStep w s job = s := by
      unfold initJobStep
      rw [if_pos h1]
    rw [he]
    exact h
  · cases hres : job.job_resrcs with
    | none =>
      have he : initJobStep w s job = s := by
        unfold initJobStep
        rw [if_neg h1, hres]
      rw [he]
      exact h
    | some resrcs =>
      have hrun : (initJobStep w s job).run_job_ids =
          (if job.isRunning = true ∨ (job.isSuspended = true ∧
            job.priority ≠ 0) then _add_run_job s job.job_id
          else s).run_job_ids := by
        unfold initJobStep
        rw [if_neg h1, hres]
        rfl
      have htot : (initJobStep w s job).tot_job_ids =
          addJobId (if job.isRunning = true ∨ (job.isSuspended = true ∧
            job.priority ≠ 0) then _add_run_job s job.job_id
          else s).tot_job_ids job.job_id := by
        unfold initJobStep
        rw [if_neg h1, hres]
        rfl
      intro id hne hmem
      rw [hrun] at hmem
      rw [htot]
      by_cases hrunish : job.isRunning = true ∨
          (job.isSuspended = true ∧ job.priority ≠ 0)
      · rw [if_pos hrunish] at hmem ⊢
        change id ∈ addJobId s.run_job_ids job.job_id at hmem
        show id ∈ addJobId s.tot_job_ids job.job_id
        rcases addJobId_mem hmem with hx | hx | hx
        · rw [hx]
          exact mem_addJobId _ _
        · exact mem_addJobId_of_mem hne (h id hne hx)
        · exact absurd hx hne
      · rw [if_neg hrunish] at hmem ⊢
        exact mem_addJobId_of_mem hne (h id hne hmem)

theorem runSubsetTot_init (w : World) (parts : List PartRecord)
    (jobs : List Job) : runSubsetTot (_init_node_cr w parts jobs) := by
  unfold _init_node_cr
  have hgen : ∀ (js : List Job) (s : CRState), runSubsetTot s →
      runSubsetTot (js.foldl (initJobStep w) s) := by
    intro js
    induction js with
    | nil => exact fun s hs => hs
    | cons j rest ih =>
      intro s hs
      exact ih _ (runSubsetTot_initJobStep w s j hs)
  exact hgen jobs _ (fun id _ hmem => by simp at hmem)

/-- C4 amended.  In every state reachable from the empty registry by
`init_from_world`, `commit_alloc` (either mode), `release_alloc` (either
mode, provided the job still carries its `job_resources` record) and
`clone`, every nonzero job id in the run set is also in the total set.
Without the proviso on release the claim fails: releasing a job whose
`job_resrcs` pointer is null removes the id from the total set only (see
the counterexample). -/
theorem C4_run_subset_tot (w : World) (parts : List PartRecord)
    (s : CRState) (h : ReachSafe w parts s) :
    ∀ id, id ≠ 0 → id ∈ s.run_job_ids → id ∈ s.tot_job_ids := by
  induction h with
  | empty n => exact fun id hne hmem => absurd hmem (by simp)
  | init jobs => exact runSubsetTot_init w parts jobs
  | commit job aa _ ih => exact runSubsetTot_add w _ job aa ih
  | release job ra hres _ ih => exact runSubsetTot_rm w _ job ra hres ih
  | clone _ ih => exact ih

/-- C4 counterexample.  From the empty one-node registry, committing job 7
and then releasing it through a job record whose `job_resrcs` pointer is
null yields a reachable state whose run set still holds 7 while its total
set does not: the unrestricted claim is false. -/
theorem C4_counterexample :
    Reach c3World [⟨1, some [true]⟩]
      (_rm_job_from_nodes c3World
        (_add_job_to_nodes c3World
          (⟨List.replicate 1 default, [], []⟩ : CRState) c3Job true).2
        c4JobNull false).2 ∧
    (7 : Nat) ∈ (_rm_job_from_nodes c3World
        (_add_job_to_nodes c3World
          (⟨List.replicate 1 default, [], []⟩ : CRState) c3Job true).2
        c4JobNull false).2.run_job_ids ∧
    (7 : Nat) ∉ (_rm_job_from_nodes c3World
        (_add_job_to_nodes c3World
          (⟨List.replicate 1 default, [], []⟩ : CRState) c3Job true).2
        c4JobNull false).2.tot_job_ids := by
  refine ⟨?_, by decide, by decide⟩
  exact Reach.release c4JobNull false (Reach.commit c3Job true
    (Reach.empty 1))

theorem C4_run_subset_tot_witness :
    (7 : Nat) ∈ (_add_job_to_nodes c3World
      (⟨List.replicate 1 default, [], []⟩ : CRState) c3Job
      true).2.tot_job_ids :=
  C4_run_subset_tot c3World [⟨1, some [true]⟩] _
    (ReachSafe.commit c3Job true (ReachSafe.empty 1)) 7 (by decide)
    (by decide)

theorem C9_nodeinfo_pack_unpack_witness :
    select_p_select_nodeinfo_unpack
        (select_p_select_nodeinfo_pack ⟨NODEINFO_MAGIC, 7⟩ []) =
      some ({ magic := NODEINFO_MAGIC, alloc_cpus := 7 }, []) ∧
    select_p_select_nodeinfo_pack ⟨NODEINFO_MAGIC, 7⟩ [] = [7] :=
  C9_nodeinfo_pack_unpack ⟨NODEINFO_MAGIC, 7⟩ (by decide)

/-- C5 amended.  The WILL_RUN planner's first placement attempt invokes
the availability filter with `run_cap = MAX(max_share − 1, 1)` — not
`max_share − 1`: the cap is clamped to at least one running job — and
`tot_cap` unlimited; when that attempt's selector succeeds the planner
returns success immediately with `job.start_time` set to the current
time. -/
theorem C5_will_run_first_attempt (w : World) (job_list : List Job)
    (cr : CRState) (job : Job) (bitmap : List Bool)
    (min_nodes max_nodes : Nat) (max_share : Int) (req_nodes now : Nat)
    (cands : Option (List Job)) (pjl : Option (Option (List Job)))
    (h1 : min_nodes ≤ (_job_count_bitmap w cr job bitmap bitmap
      (max (max_share - 1) 1) NO_SHARE_LIMIT SELECT_MODE_WILL_RUN).2)
    (h2 : (_job_test w job (_job_count_bitmap w cr job bitmap bitmap
      (max (max_share - 1) 1) NO_SHARE_LIMIT SELECT_MODE_WILL_RUN).1
      min_nodes max_nodes req_nodes).rc = SLURM_SUCCESS) :
    _will_run_test w job_list cr job bitmap min_nodes max_nodes max_share
      req_nodes now cands pjl =
      ⟨SLURM_SUCCESS,
       (_job_test w job (_job_count_bitmap w cr job bitmap bitmap
         (max (max_share - 1) 1) NO_SHARE_LIMIT
         SELECT_MODE_WILL_RUN).1 min_nodes max_nodes req_nodes).bitmap,
       { (_job_test w job (_job_count_bitmap w cr job bitmap bitmap
           (max (max_share - 1) 1) NO_SHARE_LIMIT
           SELECT_MODE_WILL_RUN).1 min_nodes max_nodes req_nodes).job with
         start_time := now },
       pjl⟩ := by
  simp only [_will_run_test, wrTestCore]
  rw [if_pos h1, if_pos (And.intro h1 h2)]

theorem C5_will_run_first_attempt_witness :
    _will_run_test c5World [] c5CR c5Job [true] 1 1 1 1 5 none none =
      ⟨SLURM_SUCCESS,
       (_job_test c5World c5Job (_job_count_bitmap c5World c5CR c5Job
         [true] [true] (max ((1 : Int) - 1) 1) NO_SHARE_LIMIT
         SELECT_MODE_WILL_RUN).1 1 1 1).bitmap,
       { (_job_test c5World c5Job (_job_count_bitmap c5World c5CR c5Job
           [true] [true] (max ((1 : Int) - 1) 1) NO_SHARE_LIMIT
           SELECT_MODE_WILL_RUN).1 1 1 1).job with start_time := 5 },
       none⟩ :=
  C5_will_run_first_attempt c5World [] c5CR c5Job [true] 1 1 1 1 5 none
    none (by decide) (by decide)

/-- C5 counterexample.  With `max_share = 1` the planner's first attempt
runs with cap `MAX(0, 1) = 1` and succeeds at once (`start_time = now`),
while the spec-described variant with cap `max_share − 1 = 0` behaves
differently on the same input: the spec's description of the first
attempt's run cap is refuted. -/
theorem C5_counterexample :
    (_will_run_test c5World [] c5CR c5Job [true] 1 1 1 1 5 none
      none).rc = SLURM_SUCCESS ∧
    (_will_run_test c5World [] c5CR c5Job [true] 1 1 1 1 5 none
      none).job.start_time = 5 ∧
    willRunTestSpecCap c5World [] c5CR c5Job [true] 1 1 1 1 5 none none ≠
      _will_run_test c5World [] c5CR c5Job [true] 1 1 1 1 5 none none := by
  refine ⟨rfl, rfl, by decide⟩

/-- C6.  With the registry already initialized, a `select_p_job_test`
call in WILL_RUN or TEST_ONLY mode leaves the registry untouched:
whatever the call's outcome, the registry after the call is the registry
before it (all simulated preemption acts on `_dup_cr` clones). -/
theorem C6_will_run_test_only_registry_frame (w : World)
    (parts : List PartRecord) (job_list : List Job) (now : Nat)
    (s : CRState) (job : Job) (bitmap : List Bool)
    (min_nodes max_nodes req_nodes mode : Nat) (cands : Option (List Job))
    (pjl : Option (Option (List Job)))
    (hmode : mode = SELECT_MODE_WILL_RUN ∨ mode = SELECT_MODE_TEST_ONLY) :
    (select_p_job_test w parts job_list now (some s) job bitmap min_nodes
      max_nodes req_nodes mode cands pjl).cr = some s := by
  rcases hmode with h | h <;> subst h <;>
    simp only [select_p_job_test] <;> split_ifs <;> rfl

theorem C6_will_run_test_only_registry_frame_witness :
    (select_p_job_test c3World [] [] 0 (some c3CR) c2Job
      (List.replicate 8 true) 3 3 3 SELECT_MODE_WILL_RUN none none).cr =
      some c3CR :=
  C6_will_run_test_only_registry_frame c3World [] [] 0 c3CR c2Job
    (List.replicate 8 true) 3 3 3 SELECT_MODE_WILL_RUN none none
    (Or.inl rfl)

/-- C8 amended.  With the registry already initialized: a null
`job_details` pointer returns `EINVAL` with nothing changed; an input
bitmap with fewer set bits than `min_nodes` returns `EINVAL` with
nothing changed; but a mode that is none of RUN_NOW, TEST_ONLY and
WILL_RUN is NOT reported to the caller as a return value — it hits
`fatal()`, which aborts the program (the registry is untouched up to
that point). -/
theorem C8_invalid_input_handling (w : World) (parts : List PartRecord)
    (job_list : List Job) (now : Nat) (s : CRState) (job : Job)
    (bitmap : List Bool) (min_nodes max_nodes req_nodes mode : Nat)
    (cands : Option (List Job)) (pjl : Option (Option (List Job))) :
    (job.details.isNone = true →
      select_p_job_test w parts job_list now (some s) job bitmap min_nodes
        max_nodes req_nodes mode cands pjl =
        ⟨Outcome.ok EINVAL, some s, bitmap, job, pjl⟩) ∧
    (job.details.isNone = false → bcount bitmap < min_nodes →
      select_p_job_test w parts job_list now (some s) job bitmap min_nodes
        max_nodes req_nodes mode cands pjl =
        ⟨Outcome.ok EINVAL, some s, bitmap, job, pjl⟩) ∧
    (job.details.isNone = false → ¬ bcount bitmap < min_nodes →
      mode ≠ SELECT_MODE_RUN_NOW → mode ≠ SELECT_MODE_TEST_ONLY →
      mode ≠ SELECT_MODE_WILL_RUN →
      select_p_job_test w parts job_list now (some s) job bitmap min_nodes
        max_nodes req_nodes mode cands pjl =
        ⟨Outcome.fatalError, some s, bitmap, job, pjl⟩) := by
  refine ⟨?_, ?_, ?_⟩
  · intro h
    simp only [select_p_job_test, h, if_true]
  · intro hd hb
    simp only [select_p_job_test, hd, Bool.false_eq_true, if_false, hb,
      if_true]
  · intro hd hb h0 h1 h2
    simp only [select_p_job_test, hd, Bool.false_eq_true, if_false, hb,
      h0, h1, h2]

theorem C8_invalid_input_handling_witness :
    select_p_job_test c3World [] [] 0 (some c3CR) c8Job
      (List.replicate 8 true) 3 3 3 SELECT_MODE_RUN_NOW none none =
      ⟨Outcome.ok EINVAL, some c3CR, List.replicate 8 true, c8Job,
        none⟩ ∧
    select_p_job_test c3World [] [] 0 (some c3CR) c2Job
      (List.replicate 8 true) 9 3 3 SELECT_MODE_RUN_NOW none none =
      ⟨Outcome.ok EINVAL, some c3CR, List.replicate 8 true, c2Job,
        none⟩ ∧
    select_p_job_test c3World [] [] 0 (some c3CR) c2Job
      (List.replicate 8 true) 3 3 3 7 none none =
      ⟨Outcome.fatalError, some c3CR, List.replicate 8 true, c2Job,
        none⟩ :=
  ⟨(C8_invalid_input_handling c3World [] [] 0 c3CR c8Job
      (List.replicate 8 true) 3 3 3 SELECT_MODE_RUN_NOW none none).1
      (by decide),
   (C8_invalid_input_handling c3World [] [] 0 c3CR c2Job
      (List.replicate 8 true) 9 3 3 SELECT_MODE_RUN_NOW none none).2.1
      (by decide) (by decide),
   (C8_invalid_input_handling c3World [] [] 0 c3CR c2Job
      (List.replicate 8 true) 3 3 3 7 none none).2.2
      (by decide) (by decide) (by decide) (by decide) (by decide)⟩

/-- C8 counterexample.  A concrete call with valid details, enough set
bits and mode `7` does not produce any return value: it ends in
`fatal()` (daemon abort), so the unknown-mode error is not "reported to
the caller as a return value" as claimed. -/
theorem C8_counterexample :
    (select_p_job_test c3World [] [] 0 (some c3CR) c2Job
      (List.replicate 8 true) 3 3 3 7 none none).outcome =
      Outcome.fatalError ∧
    ∀ rc : Int, (select_p_job_test c3World [] [] 0 (some c3CR) c2Job
      (List.replicate 8 true) 3 3 3 7 none none).outcome ≠
      Outcome.ok rc := by
  refine ⟨rfl, ?_⟩
  intro rc h
  exact Outcome.noConfusion h

end SelectLinear
